import Mathlib

/-!
Shallow embedding of the blueprint-analysis validator/sanitizer from
`src/services/catalogService.ts` (`validateAnalysisResult`,
`sanitizeAnalysisResult`, `getDefaultSquareFootage`) and of the selection
generator (`generateSelections`, `getQuantityForRoomAndSubcategory`).

JavaScript data is modelled by the `JVal` type.  Machine doubles are
idealised as rationals; `NaN` is represented by `none` in the `Option ℚ`
results of numeric coercion (JSON input carries no `NaN`, so `NaN` arises
only from coercions).  Objects are association lists in insertion order.
Property reads on non-null primitives yield `undefined` (the `.length`
property of strings and arrays is not modelled: in this code every such
read is conjoined with a `width` read that is `undefined`, so it is
unobservable).  Property reads on `null`/`undefined` and property writes
on non-objects throw `TypeError`, as in strict-mode JS.  Arrays used as
property bags, prototype-chain lookups (e.g. a room type `"toString"`),
and string numerals outside sign/decimal/exponent form (hex, `Infinity`)
are outside the model; no claim below exercises them.
-/

namespace BuildSelect

/-! Kernel-computable rational arithmetic.  `Rat`'s own `*`, `-`, `<` and
`Int.floor` do not reduce definitionally, so the model routes all numeric
work through `mkRat`-based wrappers; bridge lemmas below identify them
with the mathematical operations on `ℚ`. -/

/-- `a * b` computed through `mkRat`. -/
def qMul (a b : ℚ) : ℚ := mkRat (a.num * b.num) (a.den * b.den)

/-- `a - b` computed through `mkRat`. -/
def qSub (a b : ℚ) : ℚ := mkRat (a.num * (b.den : ℤ) - b.num * (a.den : ℤ)) (a.den * b.den)

/-- `|a|` computed through `mkRat`. -/
def qAbs (a : ℚ) : ℚ := mkRat (a.num.natAbs : ℤ) a.den

/-- `a < b` by cross multiplication (denominators are positive). -/
def qLtB (a b : ℚ) : Bool := decide (a.num * (b.den : ℤ) < b.num * (a.den : ℤ))

/-- The rational `k`. -/
def qOfInt (k : ℤ) : ℚ := mkRat k 1

/-- JS `Math.round`: round half toward positive infinity. -/
def jsRound (x : ℚ) : ℤ := Rat.floor (mkRat (2 * x.num + (x.den : ℤ)) (2 * x.den))

/-- The number `0.5` written to repaired confidence fields. -/
def qHalf : ℚ := mkRat 1 2

/-- A JSON-ish JavaScript value. -/
inductive JVal : Type where
  | undef : JVal
  | jnull : JVal
  | jbool : Bool → JVal
  | num : ℚ → JVal
  | str : String → JVal
  | arr : List JVal → JVal
  | obj : List (String × JVal) → JVal

/-- First-match association-list lookup (JS own-property read). -/
def assoc {β : Type} : String → List (String × β) → Option β
  | _, [] => none
  | k, (k₁, v) :: t => if k₁ = k then some v else assoc k t

/-- Replace the first entry with the given key, or append a new entry
(JS property write keeps insertion order, new keys go last). -/
def setEntry : List (String × JVal) → String → JVal → List (String × JVal)
  | [], k, v => [(k, v)]
  | (k₁, v₁) :: t, k, v => if k₁ = k then (k, v) :: t else (k₁, v₁) :: setEntry t k v

/-- Non-throwing property read: objects look up the field, everything else
yields `undefined`.  Used only where the receiver is known non-nullish. -/
def getF (o : JVal) (k : String) : JVal :=
  match o with
  | .obj fs => (assoc k fs).getD .undef
  | _ => JVal.undef

/-- Non-throwing property write on objects; identity elsewhere.  Used only
where the receiver is known to be an object. -/
def setF (o : JVal) (k : String) (v : JVal) : JVal :=
  match o with
  | .obj fs => .obj (setEntry fs k v)
  | _ => o

def isObj : JVal → Bool
  | .obj _ => true
  | _ => false

def isArr : JVal → Bool
  | .arr _ => true
  | _ => false

def isUndef : JVal → Bool
  | .undef => true
  | _ => false

/-- JS `room !== null` (note: `undefined` passes this test). -/
def notNull : JVal → Bool
  | .jnull => false
  | _ => true

/-- JS truthiness. -/
def truthy : JVal → Bool
  | .undef => false
  | .jnull => false
  | .jbool b => b
  | .num q => decide (q ≠ 0)
  | .str s => decide (s ≠ "")
  | .arr _ => true
  | .obj _ => true

/-- JS `a || b`. -/
def jsOr (a b : JVal) : JVal := if truthy a then a else b

def digitVal (c : Char) : Nat := c.toNat - '0'.toNat

def allDigits (cs : List Char) : Bool := cs.all (·.isDigit)

def natOfDigits (cs : List Char) : Nat := cs.foldl (fun a c => a * 10 + digitVal c) 0

/-- Split a character list at the first character satisfying `p`. -/
def splitFirst (p : Char → Bool) : List Char → (List Char × Option (List Char))
  | [] => ([], none)
  | c :: t =>
    if p c then ([], some t)
    else
      let r := splitFirst p t
      (c :: r.1, r.2)

/-- Decimal mantissa: `digits`, `digits.digits`, or `.digits`. -/
def parseMantissa (cs : List Char) : Option ℚ :=
  let r := splitFirst (· == '.') cs
  match r.2 with
  | none => if cs ≠ [] && allDigits cs then some (natOfDigits cs) else none
  | some fp =>
    if allDigits r.1 && allDigits fp && (r.1 ≠ [] || fp ≠ []) then
      some ((natOfDigits r.1 : ℚ) + (natOfDigits fp : ℚ) / (10 : ℚ) ^ fp.length)
    else none

/-- Signed decimal exponent. -/
def parseExp (cs : List Char) : Option ℤ :=
  match cs with
  | '+' :: t => if t ≠ [] && allDigits t then some (natOfDigits t : ℤ) else none
  | '-' :: t => if t ≠ [] && allDigits t then some (-(natOfDigits t : ℤ)) else none
  | t => if t ≠ [] && allDigits t then some (natOfDigits t : ℤ) else none

def parseUnsignedNum (cs : List Char) : Option ℚ :=
  let r := splitFirst (fun c => c == 'e' || c == 'E') cs
  match r.2 with
  | none => parseMantissa r.1
  | some ecs => do
    let mv ← parseMantissa r.1
    let ev ← parseExp ecs
    pure (mv * (10 : ℚ) ^ ev)

/-- JS `ToNumber` on a string: trimmed empty string is `0`; otherwise a
signed decimal numeral (hexadecimal and `Infinity` forms fall outside the
rational model and map to `none`). -/
def strToNumber (s : String) : Option ℚ :=
  let t := s.trim
  if t = "" then some 0
  else
    match t.toList with
    | '+' :: cs => parseUnsignedNum cs
    | '-' :: cs => (parseUnsignedNum cs).map (fun q => -q)
    | cs => parseUnsignedNum cs

/-- JS `ToNumber`; `none` stands for `NaN` (and for the non-rational
`Infinity`).  A one-element array coerces through its element's string
form, idealised here as the element's own numeric coercion. -/
def toNumber : JVal → Option ℚ
  | .undef => none
  | .jnull => some 0
  | .jbool b => some (if b then 1 else 0)
  | .num q => some q
  | .str s => strToNumber s
  | .arr [] => some 0
  | .arr [v] => toNumber v
  | .arr (_ :: _ :: _) => none
  | .obj _ => none

/-- JS `v < q` where `q` is a number literal (NaN compares false). -/
def jsLtNum (v : JVal) (q : ℚ) : Bool :=
  match toNumber v with
  | some x => qLtB x q
  | none => false

/-- JS `v > q` where `q` is a number literal (NaN compares false). -/
def jsGtNum (v : JVal) (q : ℚ) : Bool :=
  match toNumber v with
  | some x => qLtB q x
  | none => false

/-- The closed room-type set from the source. -/
def validTypes : List String :=
  ["kitchen", "bathroom", "bedroom", "living_room", "dining_room", "office", "other"]

/-- JS `validTypes.includes(room.type)`: only equal strings match. -/
def isValidType (t : JVal) : Bool :=
  match t with
  | .str s => validTypes.contains s
  | _ => false

/-- The `defaults` table of `getDefaultSquareFootage`. -/
def sqftDefaults : List (String × ℚ) :=
  [("kitchen", 200), ("bathroom", 60), ("bedroom", 150), ("living_room", 300),
   ("dining_room", 200), ("office", 150), ("other", 100)]

/-- Source: `defaults[roomType] || 100`.  Every table value is nonzero, so
`||` coincides with default-on-missing; a non-string key stringifies and
matches no table key. -/
def getDefaultSquareFootage (t : JVal) : ℚ :=
  match t with
  | .str s => (assoc s sqftDefaults).getD 100
  | _ => 100

/-- The dimensions object installed when `!room.dimensions`. -/
def dims0 : JVal :=
  .obj [("length", .num 0), ("width", .num 0), ("squareFootage", .num 0)]

/-- The mismatch repair inside `sanitizeAnalysisResult`: when `length` and
`width` are truthy and `|length*width - (squareFootage || 0)| > 5`, the
field is overwritten with `Math.round(length*width)`.  A `NaN` in either
the product or the coerced existing value makes the comparison false. -/
def fixSqftMismatch (d : JVal) : JVal :=
  if truthy (getF d "length") && truthy (getF d "width") then
    match toNumber (getF d "length"), toNumber (getF d "width"),
        toNumber (jsOr (getF d "squareFootage") (.num 0)) with
    | some l, some w, some e =>
      if qLtB 5 (qAbs (qSub (qMul l w) e)) then
        setF d "squareFootage" (.num (qOfInt (jsRound (qMul l w))))
      else d
    | _, _, _ => d
  else d

/-- The small-value repair: `if (room.dimensions.squareFootage < 10)`
replace with the type default (the comparison is false for `NaN`). -/
def fixSqftSmall (room d : JVal) : JVal :=
  if jsLtNum (getF d "squareFootage") 10 then
    setF d "squareFootage" (.num (getDefaultSquareFootage (getF room "type")))
  else d

/-- The dimensions block of the per-room sanitizer. -/
def fixDims (room : JVal) : JVal :=
  if truthy (getF room "dimensions") then
    setF room "dimensions" (fixSqftSmall room (fixSqftMismatch (getF room "dimensions")))
  else setF room "dimensions" dims0

/-- Confidence repair: `undefined`, `< 0` or `> 1` becomes `0.5`. -/
def fixConfidence (room : JVal) : JVal :=
  if isUndef (getF room "confidence") || jsLtNum (getF room "confidence") 0
      || jsGtNum (getF room "confidence") 1 then
    setF room "confidence" (.num qHalf)
  else room

/-- Type repair: anything outside the closed set becomes `"other"`. -/
def fixType (room : JVal) : JVal :=
  if isValidType (getF room "type") then room else setF room "type" (.str "other")

/-- The four leading field defaults of the per-room sanitizer. -/
def setDefaultsRoom (idx : Nat) (room : JVal) : JVal :=
  let r1 := setF room "id" (jsOr (getF room "id") (.str ("room-" ++ toString (idx + 1))))
  let r2 := setF r1 "name" (jsOr (getF r1 "name") (.str ("Room " ++ toString (idx + 1))))
  let r3 := setF r2 "features" (if isArr (getF r2 "features") then getF r2 "features" else .arr [])
  setF r3 "requirements" (jsOr (getF r3 "requirements") (.obj []))

/-- The body of the `map` callback in `sanitizeAnalysisResult`, for a room
that is an object (the only case that does not throw). -/
def sanitizeRoomCore (idx : Nat) (room : JVal) : JVal :=
  fixType (fixConfidence (fixDims (setDefaultsRoom idx room)))

inductive JsErr : Type where
  | typeError : JsErr
deriving DecidableEq

/-- The `map` callback: reading `room.id` throws on `null`/`undefined`,
and the strict-mode assignment `room.id = ...` throws on any other
non-object (arrays as property bags are outside the model). -/
def sanitizeRoom (idx : Nat) (room : JVal) : Except JsErr JVal :=
  match room with
  | .obj _ => .ok (sanitizeRoomCore idx room)
  | _ => .error .typeError

/-- Left-to-right indexed map over the rooms; the first throw aborts. -/
def sanitizeRooms : Nat → List JVal → Except JsErr (List JVal)
  | _, [] => .ok []
  | i, r :: t => do
    let r₁ ← sanitizeRoom i r
    let t₁ ← sanitizeRooms (i + 1) t
    pure (r₁ :: t₁)

/-- Trailing global defaults of `sanitizeAnalysisResult`. -/
def applyGlobalDefaults (r : JVal) : JVal :=
  let r1 := setF r "totalSquareFootage" (jsOr (getF r "totalSquareFootage") (.num 0))
  let r2 := setF r1 "floorCount" (jsOr (getF r1 "floorCount") (.num 1))
  setF r2 "recommendations" (if isArr (getF r2 "recommendations") then getF r2 "recommendations" else .arr [])

/-- The rooms list a record carries (empty when absent or not an array). -/
def roomsListOf (r : JVal) : List JVal :=
  match getF r "rooms" with
  | .arr l => l
  | _ => []

/-- `sanitizeAnalysisResult(result)`.  A non-object input throws
(`result.rooms` read on nullish, or the strict-mode `result.rooms = ...`
write on a primitive).  The interim `result.rooms = []` write for a
non-array `rooms` is immediately overwritten by the post-map assignment,
so only the final write is modelled.  The `.filter(room => room !== null)`
is kept verbatim from the source. -/
def sanitizeAnalysisResult (result : JVal) : Except JsErr JVal :=
  match result with
  | .obj _ => do
    let rs ← sanitizeRooms 0 (roomsListOf result)
    pure (applyGlobalDefaults (setF result "rooms" (.arr (rs.filter notNull))))
  | _ => .error .typeError

/-- Validation diagnostics.  In the source these are interpolated message
strings; they are modelled as tagged values carrying the distinguishing
data (the room index and, where the message interpolates it, the value). -/
inductive VErr : Type where
  | roomsNotArray : VErr
  | missingName (idx : Nat) : VErr
  | missingDimensions (idx : Nat) : VErr
  | invalidSquareFootage (idx : Nat) (sqft : JVal) : VErr
  | tooLarge (idx : Nat) (sqft : JVal) : VErr
  | mismatchedDimensions (idx : Nat) : VErr
  | invalidConfidence (idx : Nat) (c : JVal) : VErr
  | invalidType (idx : Nat) (t : JVal) : VErr
  | totalTooLow (t : JVal) : VErr

/-- The per-room checks of `validateAnalysisResult`, in push order. -/
def validateRoomChecks (idx : Nat) (room : JVal) : List VErr :=
  (if ¬ truthy (getF room "name") then [VErr.missingName idx] else []) ++
  (if ¬ truthy (getF room "dimensions") then [VErr.missingDimensions idx]
   else
     (if ¬ truthy (getF (getF room "dimensions") "squareFootage")
         || jsLtNum (getF (getF room "dimensions") "squareFootage") 10 then
        [VErr.invalidSquareFootage idx (getF (getF room "dimensions") "squareFootage")] else []) ++
     (if jsGtNum (getF (getF room "dimensions") "squareFootage") 2000 then
        [VErr.tooLarge idx (getF (getF room "dimensions") "squareFootage")] else []) ++
     (if truthy (getF (getF room "dimensions") "length")
         && truthy (getF (getF room "dimensions") "width") then
        match toNumber (getF (getF room "dimensions") "length"),
            toNumber (getF (getF room "dimensions") "width"),
            toNumber (getF (getF room "dimensions") "squareFootage") with
        | some l, some w, some s =>
          if qLtB 5 (qAbs (qSub (qMul l w) s)) then [VErr.mismatchedDimensions idx] else []
        | _, _, _ => []
      else [])) ++
  (if ¬ isUndef (getF room "confidence")
      && (jsLtNum (getF room "confidence") 0 || jsGtNum (getF room "confidence") 1) then
    [VErr.invalidConfidence idx (getF room "confidence")] else []) ++
  (if ¬ isValidType (getF room "type") then [VErr.invalidType idx (getF room "type")] else [])

/-- One room of the validator: reading `room.name` throws on nullish
rooms; on other primitives every read yields `undefined` and no write
occurs, so validation proceeds. -/
def validateRoom (idx : Nat) (room : JVal) : Except JsErr (List VErr) :=
  match room with
  | .undef => .error .typeError
  | .jnull => .error .typeError
  | _ => .ok (validateRoomChecks idx room)

def validateRoomsList : Nat → List JVal → Except JsErr (List VErr)
  | _, [] => .ok []
  | i, r :: t => do
    let e₁ ← validateRoom i r
    let e₂ ← validateRoomsList (i + 1) t
    pure (e₁ ++ e₂)

/-- `validateAnalysisResult(result)`: early return when `rooms` is not an
array; otherwise per-room diagnostics followed by the global
`totalSquareFootage && totalSquareFootage < 100` check. -/
def validateAnalysisResult (result : JVal) : Except JsErr (List VErr) :=
  match result with
  | .undef => .error .typeError
  | .jnull => .error .typeError
  | _ =>
    match getF result "rooms" with
    | .arr l => do
      let es ← validateRoomsList 0 l
      pure (es ++
        (if truthy (getF result "totalSquareFootage")
            && jsLtNum (getF result "totalSquareFootage") 100 then
          [VErr.totalTooLow (getF result "totalSquareFootage")] else []))
    | _ => .ok [VErr.roomsNotArray]

/-! ### Selection generator (`generateSelections` in the selections service)

The database rows are modelled as typed records, the supabase calls as
pure queries/updates on a `DB` value, and `Math.random()` as an oracle
`ρ : Nat → Nat` indexed by the number of draws made so far (the JS draw
`floor(random * len)` lies in `[0, len)`; the model takes `ρ n % len`).
The generator returns the database after the call together with the
thrown error or the returned selections list. -/

structure RoomRef : Type where
  name : String
  rtype : String
deriving DecidableEq

structure Questionnaire : Type where
  project_id : String
  completed_at : ℚ
  categories_selected : List String
  room_list : List RoomRef
  finish_colors : List String
deriving DecidableEq

structure Product : Type where
  id : String
  catalog_id : String
  category : String
  subcategory : Option String
  is_available : Bool
  price : Option ℚ
  finish_options : Option (List String)
deriving DecidableEq

structure Selection : Type where
  project_id : String
  product_id : String
  room_name : String
  quantity : Nat
  finish : Option String
  unit_price : ℚ
  extended_price : ℚ
  sort_order : Nat
  is_locked : Bool
deriving DecidableEq

structure Project : Type where
  id : String
  status : String
deriving DecidableEq

structure DB : Type where
  questionnaires : List Questionnaire
  products : List Product
  selections : List Selection
  projects : List Project
deriving DecidableEq

/-- Integer-valued association lookup for the quantity tables. -/
def assocN : String → List (String × Nat) → Option Nat
  | _, [] => none
  | k, (k₁, v) :: t => if k₁ = k then some v else assocN k t

def assocT : String → List (String × List (String × Nat)) → Option (List (String × Nat))
  | _, [] => none
  | k, (k₁, v) :: t => if k₁ = k then some v else assocT k t

/-- The kitchen sub-table of the `quantityMap` literal from the source. -/
def kitchenQuantities : List (String × Nat) :=
  [("kitchen_faucet", 1), ("kitchen_sink", 1), ("dishwasher", 1), ("refrigerator", 1),
   ("pendant", 3), ("ceiling", 2), ("outlet", 6), ("cabinet_hardware", 24)]

/-- The bathroom sub-table. -/
def bathroomQuantities : List (String × Nat) :=
  [("bathroom_sink", 1), ("bathroom_faucet", 1), ("shower", 1), ("toilet", 1),
   ("pendant", 1), ("ceiling", 1), ("outlet", 4), ("cabinet_hardware", 6)]

/-- The general sub-table. -/
def generalQuantities : List (String × Nat) :=
  [("ceiling", 1), ("outlet", 4), ("thermostat", 1)]

/-- The `quantityMap` literal from the source (sub-tables named above). -/
def quantityMap : List (String × List (String × Nat)) :=
  [("kitchen", kitchenQuantities), ("bathroom", bathroomQuantities),
   ("general", generalQuantities)]

/-- JS `x || y` on an optional number where `undefined` and `0` are falsy. -/
def orFalsyN (a : Option Nat) (b : Nat) : Nat :=
  match a with
  | some n => if n = 0 then b else n
  | none => b

/-- Source: `quantityMap[roomType]?.[subcategory] ||
quantityMap['general']?.[subcategory] || 1`. -/
def getQuantityForRoomAndSubcategory (roomType subcategory : String) : Nat :=
  orFalsyN ((assocT roomType quantityMap).bind (assocN subcategory))
    (orFalsyN ((assocT "general" quantityMap).bind (assocN subcategory)) 1)

/-- Subcategory group key: `product.subcategory || 'general'`. -/
def subcatKey (p : Product) : String :=
  match p.subcategory with
  | some s => if s = "" then "general" else s
  | none => "general"

/-- First-occurrence key order of the `subcategoryGroups` record. -/
def groupKeys (l : List Product) : List String :=
  l.foldl (fun ks p => if ks.contains (subcatKey p) then ks else ks ++ [subcatKey p]) []

/-- The products pushed under one key, in their original order. -/
def groupOf (l : List Product) (k : String) : List Product :=
  l.filter (fun p => subcatKey p == k)

/-- `Object.entries(subcategoryGroups)` in key-insertion order. -/
def subEntries (l : List Product) : List (String × List Product) :=
  (groupKeys l).map (fun k => (k, groupOf l k))

def defaultProduct : Product :=
  { id := "", catalog_id := "", category := "", subcategory := none,
    is_available := false, price := none, finish_options := none }

/-- `products[Math.floor(Math.random() * products.length)]`; the draw `r`
is reduced modulo the group length (groups are never empty where this is
used). -/
def pickProduct (g : List Product) (r : Nat) : Product :=
  g.getD (r % g.length) defaultProduct

/-- Substring test used for finish matching (`String.prototype.includes`). -/
def leadsWith : List Char → List Char → Bool
  | [], _ => true
  | _ :: _, [] => false
  | a :: as, b :: bs => a == b && leadsWith as bs

def hasSubSeq : List Char → List Char → Bool
  | n, [] => n.isEmpty
  | n, c :: t => leadsWith n (c :: t) || hasSubSeq n t

def strIncludes (hay needle : String) : Bool :=
  hasSubSeq needle.toList hay.toList

/-- Finish choice: first option whose lower-cased text contains a
lower-cased preferred color, else the first option; `null` when the
product has no non-empty option list. -/
def chooseFinish (q : Questionnaire) (p : Product) : Option String :=
  match p.finish_options with
  | none => none
  | some [] => none
  | some (f0 :: fs) =>
    some (((f0 :: fs).find? (fun f =>
      q.finish_colors.any (fun pf => strIncludes f.toLower pf.toLower))).getD f0)

def priceOf (p : Product) : ℚ :=
  match p.price with
  | some x => x
  | none => 0

/-- One pushed selection row (`selections.push({...})`). -/
def mkSelection (pid : String) (q : Questionnaire) (room : RoomRef) (k : String)
    (g : List Product) (r n : Nat) : Selection :=
  let p := pickProduct g r
  let quantity := getQuantityForRoomAndSubcategory room.rtype k
  { project_id := pid
    product_id := p.id
    room_name := room.name
    quantity := quantity
    finish := chooseFinish q p
    unit_price := priceOf p
    extended_price := qMul (priceOf p) (quantity : ℚ)
    sort_order := n
    is_locked := false }

/-- Innermost loop step over one `Object.entries` pair.  In the source
`sortOrder` and the count of random draws advance together (one push and
one draw per entry), so a single counter `n` serves as both. -/
def entryStep (pid : String) (q : Questionnaire) (room : RoomRef) (ρ : Nat → Nat) :
    List Selection × Nat → String × List Product → List Selection × Nat
  | (sels, n), (k, g) => (sels ++ [mkSelection pid q room k g (ρ n) n], n + 1)

/-- Step over one selected category (`continue` on an empty group). -/
def catStep (pid : String) (q : Questionnaire) (room : RoomRef) (ρ : Nat → Nat)
    (products : List Product) (acc : List Selection × Nat) (cat : String) :
    List Selection × Nat :=
  let cp := products.filter (fun p => p.category == cat)
  if cp.isEmpty then acc else (subEntries cp).foldl (entryStep pid q room ρ) acc

/-- Step over one room of `room_list`. -/
def roomStep (pid : String) (q : Questionnaire) (ρ : Nat → Nat)
    (products : List Product) (acc : List Selection × Nat) (room : RoomRef) :
    List Selection × Nat :=
  q.categories_selected.foldl (catStep pid q room ρ products) acc

/-- The two nested `for` loops building `selections`. -/
def buildSelections (pid : String) (q : Questionnaire) (ρ : Nat → Nat)
    (products : List Product) : List Selection × Nat :=
  q.room_list.foldl (roomStep pid q ρ products) ([], 0)

/-- Fold step keeping the row with the greatest `completed_at` (ties keep
the earlier row; the database leaves tie order unspecified and no claim
depends on it). -/
def pickLater : Option Questionnaire → Questionnaire → Option Questionnaire
  | none, q => some q
  | some a, q => if qLtB a.completed_at q.completed_at then some q else some a

/-- The questionnaire query: filter by project, order by `completed_at`
descending, `limit(1).maybeSingle()`. -/
def latestQuestionnaire (db : DB) (pid : String) : Option Questionnaire :=
  (db.questionnaires.filter (fun x => x.project_id == pid)).foldl pickLater none

/-- The product query: by catalog, category in the selected list, and
availability. -/
def productQuery (db : DB) (cid : String) (cats : List String) : List Product :=
  db.products.filter (fun p => p.catalog_id == cid && cats.contains p.category && p.is_available)

/-- `generateSelections(projectId, catalogId)`.  Returns the database
after the call and either the thrown error message or the returned
selections.  The `updated_at` timestamp written to `projects` is not
modelled (wall-clock time); the `status` write is. -/
def generateSelections (pid cid : String) (ρ : Nat → Nat) (db : DB) :
    DB × Except String (List Selection) :=
  match latestQuestionnaire db pid with
  | none => (db, .error "Questionnaire not found")
  | some q =>
    let products := productQuery db cid q.categories_selected
    if products.isEmpty then (db, .error "No products found for selected categories")
    else
      let sels := (buildSelections pid q ρ products).1
      if sels.isEmpty then (db, .ok sels)
      else
        ({ db with
            selections := db.selections.filter (fun s => !(s.project_id == pid)) ++ sels
            projects := db.projects.map (fun pr =>
              if pr.id == pid then { pr with status := "review" } else pr) },
          .ok sels)

/-! ### Claim-support definitions -/

/-- Extracts the value of a successful run (probe for concrete inputs). -/
def probeOk (e : Except JsErr JVal) : JVal :=
  match e with
  | .ok v => v
  | .error _ => JVal.undef

/-- Extracts the first room of a sanitizer result (probe for concrete
counterexamples). -/
def probeRoom (e : Except JsErr JVal) : JVal :=
  match e with
  | .ok v => (roomsListOf v).getD 0 .undef
  | .error _ => JVal.undef

/-- The squareFootage of the first room of a sanitizer result. -/
def probeSqft (e : Except JsErr JVal) : JVal :=
  getF (getF (probeRoom e) "dimensions") "squareFootage"

/-- Formalizes "confidence lies in `[0,1]`": a number between 0 and 1. -/
def confInUnit (v : JVal) : Bool :=
  match v with
  | .num c => !qLtB c 0 && !qLtB 1 c
  | _ => false

/-- A room value is not nullish (reads on it cannot throw). -/
def notNullish : JVal → Bool
  | .undef => false
  | .jnull => false
  | _ => true

/-- Tests whether a value is a number. -/
def isNumB (v : JVal) : Bool :=
  match v with
  | .num _ => true
  | _ => false

/-- The number a value carries (0 on non-numbers; used only under
`isNumB`). -/
def numOf (v : JVal) : ℚ :=
  match v with
  | .num q => q
  | _ => 0

/-- A room already in canonical form: every sanitizer repair is a no-op on
it.  The numeric side conditions are stored as the exact branch booleans
of the sanitizer. -/
def cleanRoom (r : JVal) : Bool :=
  isObj r &&
  truthy (getF r "id") && truthy (getF r "name") && isArr (getF r "features") &&
  truthy (getF r "requirements") &&
  isObj (getF r "dimensions") &&
  isNumB (getF (getF r "dimensions") "length") &&
  isNumB (getF (getF r "dimensions") "width") &&
  isNumB (getF (getF r "dimensions") "squareFootage") &&
  qLtB 0 (numOf (getF (getF r "dimensions") "length")) &&
  qLtB 0 (numOf (getF (getF r "dimensions") "width")) &&
  !qLtB 5 (qAbs (qSub (qMul (numOf (getF (getF r "dimensions") "length"))
    (numOf (getF (getF r "dimensions") "width")))
    (numOf (getF (getF r "dimensions") "squareFootage")))) &&
  !qLtB (numOf (getF (getF r "dimensions") "squareFootage")) 10 &&
  confInUnit (getF r "confidence") &&
  isValidType (getF r "type")

/-- A record already in canonical form. -/
def cleanRecord (x : JVal) : Bool :=
  isObj x &&
  isArr (getF x "rooms") && (roomsListOf x).all cleanRoom &&
  isNumB (getF x "totalSquareFootage") &&
  truthy (getF x "floorCount") &&
  isArr (getF x "recommendations")

/-- The intermediate squareFootage after the tolerance step: the stored
value when within 5 of `length*width`, else `Math.round(length*width)`. -/
def sqftInter (l w s : ℚ) : ℚ :=
  if 5 < |l * w - s| then ((round (l * w) : ℤ) : ℚ) else s

/-- The final squareFootage: the intermediate value, or the type default
when the intermediate value is below 10. -/
def sqftFinal (l w s : ℚ) (t : JVal) : ℚ :=
  if sqftInter l w s < 10 then getDefaultSquareFootage t else sqftInter l w s

/-- The kitchen/bathroom quantity table exactly as the claim enumerates
it. -/
def specRoomTable : List (String × List (String × Nat)) :=
  [("kitchen",
    [("kitchen_faucet", 1), ("kitchen_sink", 1), ("dishwasher", 1), ("refrigerator", 1),
     ("pendant", 3), ("ceiling", 2), ("outlet", 6), ("cabinet_hardware", 24)]),
   ("bathroom",
    [("bathroom_sink", 1), ("bathroom_faucet", 1), ("shower", 1), ("toilet", 1),
     ("pendant", 1), ("ceiling", 1), ("outlet", 4), ("cabinet_hardware", 6)])]

/-- The general fallback sub-table as the claim enumerates it. -/
def specGeneralTable : List (String × Nat) :=
  [("ceiling", 1), ("outlet", 4), ("thermostat", 1)]

/-- Quantity resolution exactly as the claim words it: the `(room type,
subcategory)` entry, else the general sub-table entry, else 1. -/
def quantitySpec (rt sc : String) : Nat :=
  ((assocT rt specRoomTable).bind (assocN sc)).getD ((assocN sc specGeneralTable).getD 1)

/-- Indexed map by `sanitizeRoomCore`, the throw-free run of the rooms map. -/
def mapRoomsFrom (i : Nat) : List JVal → List JVal
  | [] => []
  | r :: t => sanitizeRoomCore i r :: mapRoomsFrom (i + 1) t

/-! ### Concrete sample inputs for counterexamples and witnesses -/

/-- A record whose single room lacks dimensions. -/
def sampleMissingDims : JVal := .obj [("rooms", .arr [.obj []])]

/-- A record whose single room has a `null` confidence. -/
def sampleNullConf : JVal := .obj [("rooms", .arr [.obj [("confidence", .jnull)]])]

/-- A record whose single room has an out-of-range confidence. -/
def sampleHighConf : JVal := .obj [("rooms", .arr [.obj [("confidence", .num 2)]])]

/-- A record whose single room has an unknown type. -/
def sampleGarage : JVal := .obj [("rooms", .arr [.obj [("type", .str "garage")]])]

/-- A bedroom of 13 by 1 with stored squareFootage 9: within tolerance of
the product 13, yet below 10. -/
def sampleTolerant : JVal := .obj [("type", .str "bedroom"),
  ("dimensions", .obj [("length", .num 13), ("width", .num 1), ("squareFootage", .num 9)])]

def sampleTolerantRec : JVal := .obj [("rooms", .arr [sampleTolerant])]

/-- A kitchen of 2.5 by 3 with stored squareFootage 100: the overwrite
fires and the rounded product 8 is then replaced by the default 200. -/
def sampleRounded : JVal := .obj [("type", .str "kitchen"),
  ("dimensions", .obj [("length", .num (mkRat 5 2)), ("width", .num 3),
    ("squareFootage", .num 100)])]

def sampleRoundedRec : JVal := .obj [("rooms", .arr [sampleRounded])]

/-- An office of 3.5 by 3 with stored squareFootage 100: the overwrite
fires and the rounded product 11 survives the small-value check. -/
def sampleRounded11 : JVal := .obj [("type", .str "office"),
  ("dimensions", .obj [("length", .num (mkRat 7 2)), ("width", .num 3),
    ("squareFootage", .num 100)])]

/-- A record with an empty rooms sequence and a zero total. -/
def sampleZeroTotal : JVal := .obj [("rooms", .arr []), ("totalSquareFootage", .num 0)]

/-- A record with an empty rooms sequence and a low nonzero total. -/
def sampleLowTotal : JVal := .obj [("rooms", .arr []), ("totalSquareFootage", .num 50)]

/-- A fully canonical record, fixed exactly by the sanitizer. -/
def sampleCleanRoom : JVal := .obj [("id", .str "room-1"), ("name", .str "Kitchen"),
  ("features", .arr []), ("requirements", .obj []),
  ("dimensions", .obj [("length", .num 10), ("width", .num 20), ("squareFootage", .num 200)]),
  ("confidence", .num 1), ("type", .str "kitchen")]

def sampleCleanRec : JVal := .obj [("rooms", .arr [sampleCleanRoom]),
  ("totalSquareFootage", .num 200), ("floorCount", .num 1), ("recommendations", .arr [])]

/-- The questionnaire of the worked generator example. -/
def sampleQuestionnaire : Questionnaire :=
  { project_id := "p1", completed_at := 1, categories_selected := ["appliances"],
    room_list := [{ name := "Kitchen", rtype := "kitchen" }], finish_colors := [] }

def sampleProduct : Product :=
  { id := "prod1", catalog_id := "c1", category := "appliances",
    subcategory := some "dishwasher", is_available := true, price := some 900,
    finish_options := none }

def sampleProject : Project := { id := "p1", status := "questionnaire" }

/-- A database with a questionnaire, one matching product and no stored
selections. -/
def dbFull : DB :=
  { questionnaires := [sampleQuestionnaire], products := [sampleProduct],
    selections := [], projects := [sampleProject] }

def dbEmpty : DB := { questionnaires := [], products := [], selections := [], projects := [] }

/-- A stale selection row left from an earlier run. -/
def staleSelection : Selection :=
  { project_id := "p1", product_id := "prodOld", room_name := "Old", quantity := 1,
    finish := none, unit_price := 1, extended_price := 1, sort_order := 0,
    is_locked := false }

/-- As `dbFull`, but the questionnaire lists no rooms and a stale selection
is present. -/
def dbEmptyRooms : DB :=
  { questionnaires := [{ sampleQuestionnaire with room_list := [] }],
    products := [sampleProduct], selections := [staleSelection],
    projects := [sampleProject] }

/-- A degenerate random oracle. -/
def zeroOracle : Nat → Nat := fun _ => 0

/-- The selections of a generator result (empty on error). -/
def selsOfE (e : Except String (List Selection)) : List Selection :=
  match e with
  | .ok s => s
  | .error _ => []

/-- What generation guarantees of every pushed selection: it belongs to
the project, names a room of the questionnaire and a queried product, and
its quantity and prices follow the product and the quantity table. -/
def GoodSel (pid : String) (q : Questionnaire) (products : List Product)
    (s : Selection) : Prop :=
  s.project_id = pid ∧ ∃ room ∈ q.room_list, ∃ p ∈ products,
    s.product_id = p.id ∧ s.room_name = room.name ∧
    s.quantity = getQuantityForRoomAndSubcategory room.rtype (subcatKey p) ∧
    s.unit_price = priceOf p ∧ s.extended_price = s.unit_price * (s.quantity : ℚ)

/-! ### Bridge lemmas for the kernel-computable arithmetic -/

theorem qMul_eq (a b : ℚ) : qMul a b = a * b := by
  rw [qMul, ← Rat.normalize_eq_mkRat (Nat.mul_ne_zero a.den_nz b.den_nz), ← Rat.mul_def]

theorem qSub_eq (a b : ℚ) : qSub a b = a - b := by
  rw [qSub, ← Rat.sub_def']

theorem qOfInt_eq (k : ℤ) : qOfInt k = (k : ℚ) := by
  rw [qOfInt, Rat.mkRat_one]

theorem qHalf_eq : qHalf = 1 / 2 := by
  rw [qHalf, Rat.mkRat_eq_div]
  norm_num

theorem den_pos_q (a : ℚ) : (0 : ℚ) < (a.den : ℚ) := by
  exact_mod_cast a.pos

theorem num_mul_den (x : ℚ) : (x.num : ℚ) = x * (x.den : ℚ) :=
  (div_eq_iff (ne_of_gt (den_pos_q x))).mp (Rat.num_div_den x)

theorem qAbs_eq (a : ℚ) : qAbs a = |a| := by
  rw [qAbs]
  rcases le_or_lt 0 a.num with h | h
  · rw [Int.natAbs_of_nonneg h, Rat.mkRat_self, abs_of_nonneg]
    rwa [← Rat.num_nonneg]
  · rw [← Int.abs_eq_natAbs, abs_of_neg h, ← Rat.neg_mkRat, Rat.mkRat_self, abs_of_neg]
    exact lt_of_not_ge (fun hge => absurd (Rat.num_nonneg.mpr hge) (not_le.mpr h))

theorem qLtB_iff (a b : ℚ) : qLtB a b = true ↔ a < b := by
  rw [qLtB, decide_eq_true_iff]
  have h : a < b ↔ (a.num : ℚ) / a.den < (b.num : ℚ) / b.den := by
    rw [Rat.num_div_den, Rat.num_div_den]
  rw [h, div_lt_div_iff₀ (den_pos_q a) (den_pos_q b)]
  exact_mod_cast Iff.rfl

theorem jsRound_eq (x : ℚ) : jsRound x = round x := by
  have h2d : ((2 : ℚ) * (x.den : ℚ)) ≠ 0 := by
    have := den_pos_q x
    positivity
  have h1 : mkRat (2 * x.num + (x.den : ℤ)) (2 * x.den) = x + 1 / 2 := by
    rw [Rat.mkRat_eq_div]
    push_cast
    rw [div_eq_iff h2d, num_mul_den x]
    ring
  have h2 : Rat.floor (x + 1 / 2) = ⌊x + 1 / 2⌋ := by
    rw [Rat.floor_def', ← Rat.floor_def]
  rw [jsRound, h1, h2, round_eq]

/-! ### Object and field lemmas -/

theorem assoc_setEntry_same (fs : List (String × JVal)) (k : String) (v : JVal) :
    assoc k (setEntry fs k v) = some v := by
  induction fs with
  | nil => simp [setEntry, assoc]
  | cons p t ih =>
    obtain ⟨k₁, v₁⟩ := p
    by_cases h : k₁ = k
    · simp [setEntry, h, assoc]
    · simp [setEntry, h, assoc, ih]

theorem assoc_setEntry_ne (fs : List (String × JVal)) (k k' : String) (v : JVal)
    (h : k ≠ k') : assoc k (setEntry fs k' v) = assoc k fs := by
  have h' : ¬ (k' = k) := fun hh => h hh.symm
  induction fs with
  | nil => simp [setEntry, assoc, h']
  | cons p t ih =>
    obtain ⟨k₁, v₁⟩ := p
    by_cases h1 : k₁ = k'
    · subst h1
      simp [setEntry, assoc, h']
    · simp only [setEntry, if_neg h1, assoc]
      by_cases h2 : k₁ = k
      · simp [h2]
      · simp [h2, ih]

theorem setEntry_assoc_self (fs : List (String × JVal)) (k : String) (v : JVal)
    (h : assoc k fs = some v) : setEntry fs k v = fs := by
  induction fs with
  | nil => simp [assoc] at h
  | cons p t ih =>
    obtain ⟨k₁, v₁⟩ := p
    by_cases h1 : k₁ = k
    · simp [assoc, h1] at h
      simp [setEntry, h1, h]
    · simp [assoc, h1] at h
      simp [setEntry, h1, ih h]

theorem getF_setF_same (o : JVal) (ho : isObj o = true) (k : String) (v : JVal) :
    getF (setF o k v) k = v := by
  cases o <;> simp [isObj] at ho
  simp [setF, getF, assoc_setEntry_same]

theorem getF_setF_ne (o : JVal) (k k' : String) (v : JVal) (h : k ≠ k') :
    getF (setF o k' v) k = getF o k := by
  cases o <;> simp [setF, getF]
  rw [assoc_setEntry_ne _ _ _ _ h]

theorem setF_getF_self (o : JVal) (ho : isObj o = true) (k : String) (v : JVal)
    (h : getF o k = v) (hne : v ≠ .undef) : setF o k v = o := by
  cases o with
  | obj fs =>
    have hsome : assoc k fs = some v := by
      rcases ha : assoc k fs with _ | w
      · rw [getF, ha] at h
        simp [Option.getD] at h
        exact absurd h.symm hne
      · rw [getF, ha] at h
        simp [Option.getD] at h
        rw [h]
    simp [setF, setEntry_assoc_self _ _ _ hsome]
  | _ => simp_all [isObj]

theorem isObj_setF (o : JVal) (k : String) (v : JVal) : isObj (setF o k v) = isObj o := by
  cases o <;> rfl

/-! ### Sanitizer structure lemmas -/

theorem isObj_setDefaultsRoom (idx : Nat) (r : JVal) :
    isObj (setDefaultsRoom idx r) = isObj r := by
  simp [setDefaultsRoom, isObj_setF]

theorem isObj_fixDims (r : JVal) : isObj (fixDims r) = isObj r := by
  rw [fixDims]
  split <;> simp [isObj_setF]

theorem isObj_fixConfidence (r : JVal) : isObj (fixConfidence r) = isObj r := by
  rw [fixConfidence]
  split <;> simp [isObj_setF]

theorem isObj_fixType (r : JVal) : isObj (fixType r) = isObj r := by
  rw [fixType]
  split <;> simp [isObj_setF]

theorem isObj_sanitizeRoomCore (idx : Nat) (r : JVal) :
    isObj (sanitizeRoomCore idx r) = isObj r := by
  rw [sanitizeRoomCore, isObj_fixType, isObj_fixConfidence, isObj_fixDims,
    isObj_setDefaultsRoom]

theorem getF_setDefaultsRoom_ne (idx : Nat) (r : JVal) (k : String)
    (h1 : k ≠ "id") (h2 : k ≠ "name") (h3 : k ≠ "features") (h4 : k ≠ "requirements") :
    getF (setDefaultsRoom idx r) k = getF r k := by
  simp only [setDefaultsRoom]
  rw [getF_setF_ne _ _ _ _ h4, getF_setF_ne _ _ _ _ h3, getF_setF_ne _ _ _ _ h2,
    getF_setF_ne _ _ _ _ h1]

theorem getF_fixDims_ne (r : JVal) (k : String) (h : k ≠ "dimensions") :
    getF (fixDims r) k = getF r k := by
  rw [fixDims]
  split <;> rw [getF_setF_ne _ _ _ _ h]

theorem getF_fixConfidence_ne (r : JVal) (k : String) (h : k ≠ "confidence") :
    getF (fixConfidence r) k = getF r k := by
  rw [fixConfidence]
  split
  · rw [getF_setF_ne _ _ _ _ h]
  · rfl

theorem getF_fixType_ne (r : JVal) (k : String) (h : k ≠ "type") :
    getF (fixType r) k = getF r k := by
  rw [fixType]
  split
  · rfl
  · rw [getF_setF_ne _ _ _ _ h]

theorem fixSqftSmall_congr (room room' d : JVal)
    (h : getF room "type" = getF room' "type") :
    fixSqftSmall room d = fixSqftSmall room' d := by
  rw [fixSqftSmall, fixSqftSmall, h]

/-- The confidence field of a sanitized room, in terms of the input room. -/
theorem conf_sanitizeRoomCore (idx : Nat) (r : JVal) (ho : isObj r = true) :
    getF (sanitizeRoomCore idx r) "confidence" =
      (if isUndef (getF r "confidence") || jsLtNum (getF r "confidence") 0
          || jsGtNum (getF r "confidence") 1 then .num qHalf else getF r "confidence") := by
  have hz : isObj (fixDims (setDefaultsRoom idx r)) = true := by
    rw [isObj_fixDims, isObj_setDefaultsRoom, ho]
  have hzc : getF (fixDims (setDefaultsRoom idx r)) "confidence" = getF r "confidence" := by
    rw [getF_fixDims_ne _ _ (by decide),
      getF_setDefaultsRoom_ne _ _ _ (by decide) (by decide) (by decide) (by decide)]
  rw [sanitizeRoomCore, getF_fixType_ne _ _ (by decide), fixConfidence, hzc]
  split
  · rw [getF_setF_same _ hz]
  · exact hzc

/-- The type field of a sanitized room is always in the closed set. -/
theorem type_sanitizeRoomCore_valid (idx : Nat) (r : JVal) (ho : isObj r = true) :
    isValidType (getF (sanitizeRoomCore idx r) "type") = true := by
  have hz : isObj (fixConfidence (fixDims (setDefaultsRoom idx r))) = true := by
    rw [isObj_fixConfidence, isObj_fixDims, isObj_setDefaultsRoom, ho]
  rw [sanitizeRoomCore, fixType]
  split
  · assumption
  · rw [getF_setF_same _ hz]
    decide

/-- The dimensions of a sanitized room, in terms of the input room. -/
theorem dims_sanitizeRoomCore (idx : Nat) (r : JVal) (ho : isObj r = true) :
    getF (sanitizeRoomCore idx r) "dimensions" =
      (if truthy (getF r "dimensions") then
        fixSqftSmall r (fixSqftMismatch (getF r "dimensions"))
      else dims0) := by
  have hz : isObj (setDefaultsRoom idx r) = true := by rw [isObj_setDefaultsRoom, ho]
  have hzd : getF (setDefaultsRoom idx r) "dimensions" = getF r "dimensions" := by
    rw [getF_setDefaultsRoom_ne _ _ _ (by decide) (by decide) (by decide) (by decide)]
  have hzt : getF (setDefaultsRoom idx r) "type" = getF r "type" := by
    rw [getF_setDefaultsRoom_ne _ _ _ (by decide) (by decide) (by decide) (by decide)]
  rw [sanitizeRoomCore, getF_fixType_ne _ _ (by decide),
    getF_fixConfidence_ne _ _ (by decide), fixDims, hzd]
  split
  · rw [getF_setF_same _ hz]
    exact fixSqftSmall_congr _ r _ hzt
  · rw [getF_setF_same _ hz]

theorem sanitizeRooms_ok_of_obj (l : List JVal) (i : Nat)
    (h : ∀ r ∈ l, isObj r = true) : sanitizeRooms i l = .ok (mapRoomsFrom i l) := by
  induction l generalizing i with
  | nil => rfl
  | cons r t ih =>
    have hr : isObj r = true := h r (List.mem_cons_self _ _)
    have hro : sanitizeRoom i r = .ok (sanitizeRoomCore i r) := by
      cases r <;> simp [isObj] at hr <;> rfl
    rw [sanitizeRooms, hro, ih (i + 1) (fun x hx => h x (List.mem_cons_of_mem _ hx))]
    rfl

theorem sanitizeRooms_ok_mem (l : List JVal) (i : Nat) (rs : List JVal)
    (h : sanitizeRooms i l = .ok rs) :
    ∀ r' ∈ rs, ∃ j r, r ∈ l ∧ isObj r = true ∧ r' = sanitizeRoomCore j r := by
  induction l generalizing i rs with
  | nil =>
    rw [sanitizeRooms] at h
    cases h
    simp
  | cons r t ih =>
    rw [sanitizeRooms] at h
    cases hr : sanitizeRoom i r with
    | error e => rw [hr] at h; cases h
    | ok r₁ =>
      rw [hr] at h
      cases ht : sanitizeRooms (i + 1) t with
      | error e => rw [ht] at h; cases h
      | ok t₁ =>
        rw [ht] at h
        cases h
        intro r' hm
        rcases List.mem_cons.mp hm with hh | hh
        · have : isObj r = true ∧ r₁ = sanitizeRoomCore i r := by
            cases r <;> simp [sanitizeRoom] at hr <;> simp [isObj, hr]
          exact ⟨i, r, List.mem_cons_self _ _, this.1, hh.trans this.2⟩
        · rcases ih (i + 1) t₁ ht r' hh with ⟨j, rr, hmem, hobj, heq⟩
          exact ⟨j, rr, List.mem_cons_of_mem _ hmem, hobj, heq⟩

theorem filter_notNull_obj (l : List JVal) (h : ∀ r ∈ l, isObj r = true) :
    l.filter notNull = l := by
  induction l with
  | nil => rfl
  | cons r t ih =>
    have hr : isObj r = true := h r (List.mem_cons_self _ _)
    have hn : notNull r = true := by cases r <;> simp [isObj] at hr <;> rfl
    rw [List.filter_cons_of_pos hn, ih (fun x hx => h x (List.mem_cons_of_mem _ hx))]

theorem roomsListOf_applyGlobalDefaults (r : JVal) :
    roomsListOf (applyGlobalDefaults r) = roomsListOf r := by
  rw [roomsListOf, roomsListOf]
  simp only [applyGlobalDefaults]
  rw [getF_setF_ne _ _ _ _ (by decide), getF_setF_ne _ _ _ _ (by decide),
    getF_setF_ne _ _ _ _ (by decide)]

theorem roomsListOf_setF_rooms (x : JVal) (ho : isObj x = true) (l : List JVal) :
    roomsListOf (setF x "rooms" (.arr l)) = l := by
  rw [roomsListOf, getF_setF_same _ ho]

/-- Shape of a successful sanitizer run. -/
theorem sanitize_ok_shape (x y : JVal) (h : sanitizeAnalysisResult x = .ok y) :
    isObj x = true ∧ ∃ rs, sanitizeRooms 0 (roomsListOf x) = .ok rs ∧
      y = applyGlobalDefaults (setF x "rooms" (.arr (rs.filter notNull))) := by
  cases x with
  | obj fs =>
    rw [sanitizeAnalysisResult] at h
    cases hrs : sanitizeRooms 0 (roomsListOf (JVal.obj fs)) with
    | error e => rw [hrs] at h; cases h
    | ok rs =>
      rw [hrs] at h
      cases h
      exact ⟨rfl, rs, rfl, rfl⟩
  | _ => cases h

/-! ### Claim theorems -/

/-- C1: the spec claims `sanitizeAnalysisResult` terminates without
throwing for every input and in particular turns the empty object into a
structurally valid record.  The empty object is indeed repaired, but a
rooms array containing `null` makes the code throw a `TypeError` at
`room.id = room.id || ...` before its own "Remove null rooms" filter can
run (and a `null` record throws at `result.rooms`), so the universal
claim fails on the code. -/
theorem C1_sanitize_null_room_throws :
    sanitizeAnalysisResult (.obj []) =
      .ok (.obj [("rooms", .arr []), ("totalSquareFootage", .num 0),
        ("floorCount", .num 1), ("recommendations", .arr [])]) ∧
    sanitizeAnalysisResult (.obj [("rooms", .arr [.jnull])]) = .error .typeError ∧
    sanitizeAnalysisResult .jnull = .error .typeError :=
  ⟨rfl, rfl, rfl⟩

/-- C6 counterexample: sanitize is not idempotent.  A room without
dimensions gets `{length: 0, width: 0, squareFootage: 0}` on the first
pass (the `< 10` default check lives in the else branch, which is
skipped), and the second pass rewrites that 0 to the type default 100. -/
theorem C6_counterexample :
    (sanitizeAnalysisResult sampleMissingDims).bind sanitizeAnalysisResult ≠
      sanitizeAnalysisResult sampleMissingDims := by
  intro h
  have h1 : probeSqft ((sanitizeAnalysisResult sampleMissingDims).bind
      sanitizeAnalysisResult) = .num 100 := rfl
  have h2 : probeSqft (sanitizeAnalysisResult sampleMissingDims) = .num 0 := rfl
  rw [h] at h1
  have h3 := h2.symm.trans h1
  injection h3 with h4
  norm_num at h4

/-- C7 counterexample: a `null` confidence is neither `=== undefined` nor
`< 0` nor `> 1`, so the sanitizer keeps it; the output confidence is
`null`, not a number in `[0,1]` and not `0.5`. -/
theorem C7_counterexample :
    getF (probeRoom (sanitizeAnalysisResult sampleNullConf)) "confidence" = .jnull ∧
    confInUnit (getF (probeRoom (sanitizeAnalysisResult sampleNullConf)) "confidence")
      = false :=
  ⟨rfl, rfl⟩

/-- C9 counterexample: a zero `totalSquareFootage` is falsy, so the guard
`result.totalSquareFootage && result.totalSquareFootage < 100` skips the
too-low warning even though the total (0) is below 100 and `rooms` is a
sequence. -/
theorem C9_counterexample :
    validateAnalysisResult sampleZeroTotal = .ok [] ∧ (0 : ℚ) < 100 :=
  ⟨rfl, by norm_num⟩

/-- C2 counterexample: for a bedroom of 13 by 1 with stored squareFootage
9 the tolerance check keeps 9 (difference 4), the small-value check then
installs the bedroom default 150, yet the recomputed product 13 is not
below 10 and 150 is not within 5 of it — contradicting the claim that the
default appears only when the recomputed product is below 10. -/
theorem C2_counterexample :
    probeSqft (sanitizeAnalysisResult sampleTolerantRec) = .num 150 ∧
    JVal.num (150 : ℚ) = .num (getDefaultSquareFootage (.str "bedroom")) ∧
    ¬ |(150 : ℚ) - 13 * 1| ≤ 5 ∧ ¬ (13 : ℚ) * 1 < 10 :=
  ⟨rfl, rfl, by norm_num, by norm_num⟩

/-- C10 counterexample: for a kitchen of 2.5 by 3 with stored
squareFootage 100 the mismatch overwrite fires, but the rounded product 8
is below 10 and is immediately replaced by the kitchen default 200, so
the stored result is not `Math.round(length*width)`. -/
theorem C10_counterexample :
    probeSqft (sanitizeAnalysisResult sampleRoundedRec) = .num 200 ∧
    5 < |mkRat 5 2 * 3 - (100 : ℚ)| ∧
    (200 : ℚ) ≠ ((round (mkRat 5 2 * 3) : ℤ) : ℚ) := by
  refine ⟨rfl, ?_, ?_⟩
  · rw [Rat.mkRat_eq_div]
    norm_num
    rw [abs_of_nonneg (by norm_num)]
    norm_num
  · rw [Rat.mkRat_eq_div]
    norm_num [round_eq]

theorem getF_pre_fixType (idx : Nat) (r : JVal) :
    getF (fixConfidence (fixDims (setDefaultsRoom idx r))) "type" = getF r "type" := by
  rw [getF_fixConfidence_ne _ _ (by decide), getF_fixDims_ne _ _ (by decide),
    getF_setDefaultsRoom_ne _ _ _ (by decide) (by decide) (by decide) (by decide)]

theorem type_sanitizeRoomCore_coerce (idx : Nat) (r : JVal) (ho : isObj r = true)
    (h : isValidType (getF r "type") = false) :
    getF (sanitizeRoomCore idx r) "type" = .str "other" := by
  have hz : isObj (fixConfidence (fixDims (setDefaultsRoom idx r))) = true := by
    rw [isObj_fixConfidence, isObj_fixDims, isObj_setDefaultsRoom, ho]
  rw [sanitizeRoomCore, fixType, getF_pre_fixType, h]
  simp only [Bool.false_eq_true, if_false]
  rw [getF_setF_same _ hz]

/-- C8: every room of a record produced by `sanitizeAnalysisResult` has a
type in the closed set, and an input room whose type is outside the set
comes out with type `"other"`. -/
theorem C8_type_closed (x y : JVal) (h : sanitizeAnalysisResult x = .ok y) :
    ∀ r ∈ roomsListOf y, isValidType (getF r "type") = true ∧
      ∃ j r₀, r₀ ∈ roomsListOf x ∧ r = sanitizeRoomCore j r₀ ∧
        (isValidType (getF r₀ "type") = false → getF r "type" = .str "other") := by
  obtain ⟨hx, rs, hrs, hy⟩ := sanitize_ok_shape x y h
  intro r hr
  rw [hy, roomsListOf_applyGlobalDefaults, roomsListOf_setF_rooms x hx] at hr
  obtain ⟨j, r₀, hmem, hobj, heq⟩ :=
    sanitizeRooms_ok_mem _ _ _ hrs r (List.mem_of_mem_filter hr)
  subst heq
  exact ⟨type_sanitizeRoomCore_valid j r₀ hobj, j, r₀, hmem, rfl,
    fun hinv => type_sanitizeRoomCore_coerce j r₀ hobj hinv⟩

theorem jsLtNum_num (q c : ℚ) : jsLtNum (.num q) c = qLtB q c := rfl

theorem jsGtNum_num (q c : ℚ) : jsGtNum (.num q) c = qLtB c q := rfl

theorem qLtB_eq_decide (a b : ℚ) : qLtB a b = decide (a < b) := by
  by_cases h : a < b
  · rw [decide_eq_true h]
    exact (qLtB_iff a b).mpr h
  · rw [decide_eq_false h]
    exact Bool.eq_false_iff.mpr (fun hh => h ((qLtB_iff a b).mp hh))

theorem toNumber_jsOr_num_zero (s : ℚ) :
    toNumber (jsOr (.num s) (.num 0)) = some s := by
  by_cases h : s = 0
  · subst h
    rfl
  · rw [jsOr, if_pos]
    · rfl
    · exact decide_eq_true h

theorem truthy_num_ne (s : ℚ) (h : s ≠ 0) : truthy (.num s) = true := decide_eq_true h

/-- The tolerance step of the dimensions repair, on numeric fields. -/
theorem fixSqftMismatch_num (d : JVal) (l w s : ℚ)
    (hl : getF d "length" = .num l) (hl0 : l ≠ 0)
    (hw : getF d "width" = .num w) (hw0 : w ≠ 0)
    (hs : getF d "squareFootage" = .num s) :
    fixSqftMismatch d =
      (if 5 < |l * w - s| then
        setF d "squareFootage" (.num (qOfInt (jsRound (qMul l w))))
      else d) := by
  rw [fixSqftMismatch, hl, hw, hs]
  rw [truthy_num_ne l hl0, truthy_num_ne w hw0]
  simp only [Bool.and_self, if_true]
  rw [toNumber_jsOr_num_zero]
  show (if qLtB 5 (qAbs (qSub (qMul l w) s)) then _ else d) = _
  rw [qLtB_eq_decide, qMul_eq, qSub_eq, qAbs_eq]
  simp only [decide_eq_true_eq]

/-- The small-value step of the dimensions repair, on a numeric field. -/
theorem fixSqftSmall_num (room d : JVal) (s : ℚ)
    (hs : getF d "squareFootage" = .num s) :
    fixSqftSmall room d =
      (if s < 10 then
        setF d "squareFootage" (.num (getDefaultSquareFootage (getF room "type")))
      else d) := by
  rw [fixSqftSmall, hs, jsLtNum_num, qLtB_eq_decide]
  simp only [decide_eq_true_eq]

/-- The squareFootage a sanitized room ends with, for a room whose
dimensions carry numeric truthy length and width and a numeric
squareFootage. -/
theorem sqft_sanitizeRoomCore (idx : Nat) (r : JVal) (ho : isObj r = true)
    (hdo : isObj (getF r "dimensions") = true) (l w s : ℚ)
    (hl : getF (getF r "dimensions") "length" = .num l) (hl0 : l ≠ 0)
    (hw : getF (getF r "dimensions") "width" = .num w) (hw0 : w ≠ 0)
    (hs : getF (getF r "dimensions") "squareFootage" = .num s) :
    getF (getF (sanitizeRoomCore idx r) "dimensions") "squareFootage" =
      .num (sqftFinal l w s (getF r "type")) := by
  have htd : truthy (getF r "dimensions") = true := by
    cases hD : getF r "dimensions" <;> rw [hD] at hdo <;> simp [isObj] at hdo
    rfl
  have hround : qOfInt (jsRound (qMul l w)) = ((round (l * w) : ℤ) : ℚ) := by
    rw [qOfInt_eq, jsRound_eq, qMul_eq]
  rw [dims_sanitizeRoomCore idx r ho, if_pos htd]
  rw [fixSqftMismatch_num _ l w s hl hl0 hw hw0 hs]
  by_cases h5 : 5 < |l * w - s|
  · rw [if_pos h5]
    have hobj1 : isObj (setF (getF r "dimensions") "squareFootage"
        (.num (qOfInt (jsRound (qMul l w))))) = true := by
      rw [isObj_setF, hdo]
    have hd1 : getF (setF (getF r "dimensions") "squareFootage"
        (.num (qOfInt (jsRound (qMul l w))))) "squareFootage" =
          .num (qOfInt (jsRound (qMul l w))) := getF_setF_same _ hdo _ _
    rw [hround] at hd1 hobj1 ⊢
    rw [fixSqftSmall_num r _ _ hd1]
    by_cases h10 : ((round (l * w) : ℤ) : ℚ) < 10
    · rw [if_pos h10, getF_setF_same _ hobj1]
      simp only [sqftFinal, sqftInter, if_pos h5, if_pos h10]
    · rw [if_neg h10, hd1]
      simp only [sqftFinal, sqftInter, if_pos h5, if_neg h10]
  · rw [if_neg h5]
    rw [fixSqftSmall_num r _ s hs]
    by_cases h10 : s < 10
    · rw [if_pos h10, getF_setF_same _ hdo]
      simp only [sqftFinal, sqftInter, if_neg h5, if_pos h10]
    · rw [if_neg h10, hs]
      simp only [sqftFinal, sqftInter, if_neg h5, if_neg h10]

/-- C2 amended: for rooms with positive numeric length and width and a
numeric squareFootage, the sanitized squareFootage is within 5 of
`length*width`, or it equals the type-specific default — the latter
exactly when the intermediate value (the stored value when within
tolerance, else the rounded product) was below 10.  (The original claim
tied the default to `length*width < 10`; the counterexample shows the
stored value, not the recomputed product, drives the default.) -/
theorem C2_sqft_amended (idx : Nat) (r : JVal) (ho : isObj r = true)
    (hdo : isObj (getF r "dimensions") = true) (l w s : ℚ)
    (hl : getF (getF r "dimensions") "length" = .num l) (hlp : 0 < l)
    (hw : getF (getF r "dimensions") "width" = .num w) (hwp : 0 < w)
    (hs : getF (getF r "dimensions") "squareFootage" = .num s) :
    getF (getF (sanitizeRoomCore idx r) "dimensions") "squareFootage" =
      .num (sqftFinal l w s (getF r "type")) ∧
    (|sqftFinal l w s (getF r "type") - l * w| ≤ 5 ∨
      (sqftFinal l w s (getF r "type") = getDefaultSquareFootage (getF r "type") ∧
        sqftInter l w s < 10)) := by
  refine ⟨sqft_sanitizeRoomCore idx r ho hdo l w s hl (ne_of_gt hlp) hw
    (ne_of_gt hwp) hs, ?_⟩
  by_cases hI : sqftInter l w s < 10
  · exact Or.inr ⟨by rw [sqftFinal, if_pos hI], hI⟩
  · left
    rw [sqftFinal, if_neg hI, sqftInter]
    by_cases h5 : 5 < |l * w - s|
    · rw [if_pos h5]
      have hr := abs_sub_round (l * w)
      rw [abs_sub_comm] at hr
      linarith
    · rw [if_neg h5, abs_sub_comm]
      linarith [not_lt.mp h5]

/-- C2 amended witness: the kitchen of 2.5 by 3 with stored squareFootage
100 instantiates the amended claim (default branch: the rounded product 8
is the intermediate value and lies below 10). -/
theorem C2_sqft_amended_witness :
    getF (getF (sanitizeRoomCore 0 sampleRounded) "dimensions") "squareFootage" =
      .num (sqftFinal (mkRat 5 2) 3 100 (getF sampleRounded "type")) ∧
    (|sqftFinal (mkRat 5 2) 3 100 (getF sampleRounded "type") - mkRat 5 2 * 3| ≤ 5 ∨
      (sqftFinal (mkRat 5 2) 3 100 (getF sampleRounded "type") =
        getDefaultSquareFootage (getF sampleRounded "type") ∧
        sqftInter (mkRat 5 2) 3 100 < 10)) :=
  C2_sqft_amended 0 sampleRounded rfl rfl (mkRat 5 2) 3 100 rfl
    (by rw [Rat.mkRat_eq_div]; norm_num) rfl (by norm_num) rfl

/-- C10 amended: when the mismatch overwrite fires and the rounded
product is at least 10, the stored squareFootage is exactly
`Math.round(length*width)` — an integer even for non-integer products.
(The original claim omitted the `≥ 10` proviso; below 10 the type default
replaces the rounded value, as the counterexample shows.) -/
theorem C10_round_amended (idx : Nat) (r : JVal) (ho : isObj r = true)
    (hdo : isObj (getF r "dimensions") = true) (l w s : ℚ)
    (hl : getF (getF r "dimensions") "length" = .num l) (hl0 : l ≠ 0)
    (hw : getF (getF r "dimensions") "width" = .num w) (hw0 : w ≠ 0)
    (hs : getF (getF r "dimensions") "squareFootage" = .num s)
    (h5 : 5 < |l * w - s|) (h10 : (10 : ℚ) ≤ ((round (l * w) : ℤ) : ℚ)) :
    getF (getF (sanitizeRoomCore idx r) "dimensions") "squareFootage" =
      .num ((round (l * w) : ℤ) : ℚ) := by
  rw [sqft_sanitizeRoomCore idx r ho hdo l w s hl hl0 hw hw0 hs]
  rw [sqftFinal, sqftInter, if_pos h5, if_neg (not_lt.mpr h10)]

/-- C10 amended witness: the office of 3.5 by 3 with stored squareFootage
100 gets `round(10.5) = 11`. -/
theorem C10_round_amended_witness :
    getF (getF (sanitizeRoomCore 0 sampleRounded11) "dimensions") "squareFootage" =
      .num ((round (mkRat 7 2 * 3) : ℤ) : ℚ) :=
  C10_round_amended 0 sampleRounded11 rfl rfl (mkRat 7 2) 3 100 rfl
    (by rw [Rat.mkRat_eq_div]; norm_num) rfl (by norm_num) rfl
    (by
      rw [Rat.mkRat_eq_div]
      push_cast
      rw [show (7 : ℚ) / 2 * 3 - 100 = -(179 / 2) by norm_num, abs_neg,
        abs_of_nonneg (by norm_num)]
      norm_num)
    (by
      rw [Rat.mkRat_eq_div]
      push_cast
      rw [show (7 : ℚ) / 2 * 3 = 21 / 2 by norm_num]
      norm_num [round_eq])

/-- C7 amended: restricted to inputs whose rooms carry an absent
(`undefined`) or numeric confidence, every sanitized room's confidence is
a number in `[0,1]`, and it is exactly `0.5` whenever the source room's
confidence was absent or out of range. -/
theorem C7_confidence_amended (x y : JVal) (h : sanitizeAnalysisResult x = .ok y)
    (hin : ∀ r ∈ roomsListOf x,
      isUndef (getF r "confidence") = true ∨ ∃ q : ℚ, getF r "confidence" = .num q) :
    ∀ r ∈ roomsListOf y, confInUnit (getF r "confidence") = true ∧
      ∃ j r₀, r₀ ∈ roomsListOf x ∧ r = sanitizeRoomCore j r₀ ∧
        ((isUndef (getF r₀ "confidence") = true ∨
            confInUnit (getF r₀ "confidence") = false) →
          getF r "confidence" = .num qHalf) := by
  obtain ⟨hx, rs, hrs, hy⟩ := sanitize_ok_shape x y h
  intro r hr
  rw [hy, roomsListOf_applyGlobalDefaults, roomsListOf_setF_rooms x hx] at hr
  obtain ⟨j, r₀, hmem, hobj, heq⟩ :=
    sanitizeRooms_ok_mem _ _ _ hrs r (List.mem_of_mem_filter hr)
  subst heq
  have hc := conf_sanitizeRoomCore j r₀ hobj
  rcases hin r₀ hmem with hu | ⟨q, hq⟩
  · rw [hu] at hc
    simp only [Bool.true_or, if_true] at hc
    exact ⟨by rw [hc]; rfl, j, r₀, hmem, rfl, fun _ => hc⟩
  · rw [hq, jsLtNum_num, jsGtNum_num] at hc
    simp only [isUndef, Bool.false_or] at hc
    by_cases hcnd : (qLtB q 0 || qLtB 1 q) = true
    · rw [if_pos hcnd] at hc
      exact ⟨by rw [hc]; rfl, j, r₀, hmem, rfl, fun _ => hc⟩
    · rw [if_neg hcnd] at hc
      rcases Bool.or_eq_false_iff.mp (Bool.not_eq_true _ ▸ hcnd :
        (qLtB q 0 || qLtB 1 q) = false) with ⟨h1, h2⟩
      have hunit : confInUnit (getF (sanitizeRoomCore j r₀) "confidence") = true := by
        rw [hc]
        show (!qLtB q 0 && !qLtB 1 q) = true
        rw [h1, h2]
        rfl
      refine ⟨hunit, j, r₀, hmem, rfl, fun hp => ?_⟩
      rcases hp with hp | hp
      · rw [hq] at hp
        cases hp
      · rw [hq] at hp
        rw [show confInUnit (JVal.num q) = (!qLtB q 0 && !qLtB 1 q) from rfl] at hp
        rw [h1, h2] at hp
        cases hp

/-- C7 amended witness: the room `{confidence: 2}` comes out with
confidence `0.5`, a number in `[0,1]`. -/
theorem C7_confidence_amended_witness :
    confInUnit (getF (probeRoom (sanitizeAnalysisResult sampleHighConf)) "confidence")
        = true ∧
      getF (probeRoom (sanitizeAnalysisResult sampleHighConf)) "confidence"
        = .num qHalf := by
  have h := C7_confidence_amended sampleHighConf
    (probeOk (sanitizeAnalysisResult sampleHighConf)) rfl
    (by
      intro r hr
      rcases List.mem_singleton.mp hr with rfl
      exact Or.inr ⟨2, rfl⟩)
    (probeRoom (sanitizeAnalysisResult sampleHighConf)) (List.mem_singleton.mpr rfl)
  obtain ⟨h1, j, r₀, hmem, heq, himp⟩ := h
  rcases List.mem_singleton.mp hmem with rfl
  exact ⟨h1, by rw [heq] at h1 ⊢; exact himp (Or.inr rfl)⟩

/-- C8 witness: the sanitized `{type: "garage"}` room has a valid type. -/
theorem C8_type_closed_witness :
    isValidType (getF (probeRoom (sanitizeAnalysisResult sampleGarage)) "type") = true := by
  have h := C8_type_closed sampleGarage (probeOk (sanitizeAnalysisResult sampleGarage)) rfl
    (probeRoom (sanitizeAnalysisResult sampleGarage)) (List.mem_singleton.mpr rfl)
  exact h.1

theorem validateRoomsList_ok (l : List JVal) (i : Nat)
    (h : ∀ r ∈ l, notNullish r = true) : ∃ es, validateRoomsList i l = .ok es := by
  induction l generalizing i with
  | nil => exact ⟨[], rfl⟩
  | cons r t ih =>
    have hr : notNullish r = true := h r (List.mem_cons_self _ _)
    have hok : validateRoom i r = .ok (validateRoomChecks i r) := by
      cases r <;> first | rfl | exact absurd hr (by decide)
    obtain ⟨es, hes⟩ := ih (i + 1) (fun x hx => h x (List.mem_cons_of_mem _ hx))
    exact ⟨validateRoomChecks i r ++ es, by rw [validateRoomsList, hok, hes]; rfl⟩

/-- C9 amended: the too-low warning is emitted whenever `rooms` is a
sequence (of non-nullish rooms, so validation completes) and
`totalSquareFootage` is a nonzero number below 100.  (A zero total is
falsy and slips past the guard, as the counterexample shows.) -/
theorem C9_total_warning_amended (x : JVal) (l : List JVal) (t : ℚ)
    (hr : getF x "rooms" = .arr l)
    (hrooms : ∀ r ∈ l, notNullish r = true)
    (ht : getF x "totalSquareFootage" = .num t) (h0 : t ≠ 0) (h100 : t < 100) :
    ∃ es, validateAnalysisResult x = .ok es ∧ VErr.totalTooLow (.num t) ∈ es := by
  obtain ⟨es, hes⟩ := validateRoomsList_ok l 0 hrooms
  refine ⟨es ++ [VErr.totalTooLow (.num t)], ?_, ?_⟩
  · cases x with
    | obj fs =>
      show (match getF (JVal.obj fs) "rooms" with
        | .arr l' =>
          (do
            let es' ← validateRoomsList 0 l'
            pure (es' ++
              (if truthy (getF (JVal.obj fs) "totalSquareFootage")
                  && jsLtNum (getF (JVal.obj fs) "totalSquareFootage") 100 then
                [VErr.totalTooLow (getF (JVal.obj fs) "totalSquareFootage")] else [])))
        | _ => .ok [VErr.roomsNotArray]) = _
      rw [hr]
      show (do
        let es' ← validateRoomsList 0 l
        pure (es' ++
          (if truthy (getF (JVal.obj fs) "totalSquareFootage")
              && jsLtNum (getF (JVal.obj fs) "totalSquareFootage") 100 then
            [VErr.totalTooLow (getF (JVal.obj fs) "totalSquareFootage")] else []))) = _
      rw [hes, ht, truthy_num_ne t h0, jsLtNum_num, qLtB_eq_decide, decide_eq_true h100]
      rfl
    | undef => cases hr
    | jnull => cases hr
    | jbool b => cases hr
    | num q => cases hr
    | str s => cases hr
    | arr a => cases hr
  · exact List.mem_append_right _ (List.mem_singleton.mpr rfl)

/-- C9 amended witness: the record `{rooms: [], totalSquareFootage: 50}`
draws the too-low warning. -/
theorem C9_total_warning_amended_witness :
    ∃ es, validateAnalysisResult sampleLowTotal = .ok es ∧
      VErr.totalTooLow (.num 50) ∈ es :=
  C9_total_warning_amended sampleLowTotal [] 50 rfl (by intro r hr; cases hr) rfl
    (by norm_num) (by norm_num)

/-! ### Selection generator lemmas -/

theorem foldl_inv {α σ : Type} (P : σ → Prop) (f : σ → α → σ) (l : List α)
    (h : ∀ acc x, x ∈ l → P acc → P (f acc x)) (acc : σ) (ha : P acc) :
    P (l.foldl f acc) := by
  induction l generalizing acc with
  | nil => exact ha
  | cons x t ih =>
    exact ih (fun a y hy => h a y (List.mem_cons_of_mem _ hy)) _
      (h acc x (List.mem_cons_self _ _) ha)

theorem groupKeys_aux (l : List Product) (init : List String) (k : String)
    (h : k ∈ l.foldl
      (fun ks p => if ks.contains (subcatKey p) then ks else ks ++ [subcatKey p]) init) :
    k ∈ init ∨ ∃ p ∈ l, subcatKey p = k := by
  induction l generalizing init with
  | nil => exact Or.inl h
  | cons p t ih =>
    rcases ih _ h with hin | ⟨p', hp', hk⟩
    · have hin' : k ∈ (if init.contains (subcatKey p) then init
          else init ++ [subcatKey p]) := hin
      by_cases hc : init.contains (subcatKey p)
      · rw [if_pos hc] at hin'
        exact Or.inl hin'
      · rw [if_neg hc] at hin'
        rcases List.mem_append.mp hin' with hin2 | hin2
        · exact Or.inl hin2
        · exact Or.inr ⟨p, List.mem_cons_self _ _, (List.mem_singleton.mp hin2).symm⟩
    · exact Or.inr ⟨p', List.mem_cons_of_mem _ hp', hk⟩

theorem groupKeys_sub (l : List Product) (k : String) (h : k ∈ groupKeys l) :
    ∃ p ∈ l, subcatKey p = k := by
  rcases groupKeys_aux l [] k h with hin | hex
  · cases hin
  · exact hex

theorem subEntries_facts (cp : List Product) (k : String) (g : List Product)
    (h : (k, g) ∈ subEntries cp) :
    g ≠ [] ∧ (∀ p ∈ g, p ∈ cp) ∧ (∀ p ∈ g, subcatKey p = k) := by
  rw [subEntries] at h
  obtain ⟨k0, hk0, heq⟩ := List.mem_map.mp h
  obtain ⟨h1, h2⟩ := Prod.mk.injEq _ _ _ _ ▸ heq
  subst h1
  subst h2
  refine ⟨?_, fun p hp => (List.mem_filter.mp hp).1,
    fun p hp => eq_of_beq (List.mem_filter.mp hp).2⟩
  obtain ⟨p, hp, hkey⟩ := groupKeys_sub cp k0 hk0
  intro hnil
  have hnil' : List.filter (fun p => subcatKey p == k0) cp = [] := hnil
  have hmem : p ∈ List.filter (fun p => subcatKey p == k0) cp :=
    List.mem_filter.mpr ⟨hp, by rw [hkey]; exact beq_self_eq_true _⟩
  rw [hnil'] at hmem
  cases hmem

theorem getD_mem {α : Type} (l : List α) (n : Nat) (d : α) (h : n < l.length) :
    l.getD n d ∈ l := by
  induction l generalizing n with
  | nil => simp at h
  | cons x t ih =>
    cases n with
    | zero => exact List.mem_cons_self _ _
    | succ m => exact List.mem_cons_of_mem _ (ih m (Nat.lt_of_succ_lt_succ h))

theorem pickProduct_mem (g : List Product) (r : Nat) (h : g ≠ []) :
    pickProduct g r ∈ g := by
  rw [pickProduct]
  apply getD_mem
  apply Nat.mod_lt
  cases g with
  | nil => exact absurd rfl h
  | cons a t => exact Nat.succ_pos _

theorem mkSelection_good (pid : String) (q : Questionnaire) (room : RoomRef)
    (k : String) (g : List Product) (r n : Nat) (products : List Product)
    (hroom : room ∈ q.room_list) (hg : g ≠ []) (hsub : ∀ p ∈ g, p ∈ products)
    (hkey : ∀ p ∈ g, subcatKey p = k) :
    GoodSel pid q products (mkSelection pid q room k g r n) := by
  have hp : pickProduct g r ∈ g := pickProduct_mem g r hg
  refine ⟨rfl, room, hroom, pickProduct g r, hsub _ hp, rfl, rfl, ?_, rfl, ?_⟩
  · show getQuantityForRoomAndSubcategory room.rtype k = _
    rw [hkey _ hp]
  · show qMul (priceOf (pickProduct g r)) _ = priceOf (pickProduct g r) * _
    rw [qMul_eq]
    rfl

theorem buildSelections_good (pid : String) (q : Questionnaire) (ρ : Nat → Nat)
    (products : List Product) :
    ∀ s ∈ (buildSelections pid q ρ products).1, GoodSel pid q products s := by
  rw [buildSelections]
  refine foldl_inv (fun acc => ∀ s ∈ acc.1, GoodSel pid q products s)
    (roomStep pid q ρ products) q.room_list ?_ ([], 0) ?_
  · intro acc room hroom hacc
    rw [roomStep]
    refine foldl_inv (fun acc => ∀ s ∈ acc.1, GoodSel pid q products s)
      (catStep pid q room ρ products) q.categories_selected ?_ acc ?_
    · intro acc2 cat _ hacc2
      rw [catStep]
      by_cases he : (products.filter (fun p => p.category == cat)).isEmpty
      · rw [if_pos he]
        exact hacc2
      · rw [if_neg he]
        refine foldl_inv (fun acc => ∀ s ∈ acc.1, GoodSel pid q products s)
          (entryStep pid q room ρ) (subEntries (products.filter (fun p => p.category == cat)))
          ?_ acc2 ?_
        · intro acc3 kg hkg hacc3
          obtain ⟨sels, n⟩ := acc3
          obtain ⟨k, g⟩ := kg
          obtain ⟨hg, hsub, hkey⟩ := subEntries_facts _ _ _ hkg
          intro s hs
          rcases List.mem_append.mp hs with hs | hs
          · exact hacc3 s hs
          · rcases List.mem_singleton.mp hs with rfl
            exact mkSelection_good pid q room k g (ρ n) n products hroom hg
              (fun p hp => (List.mem_filter.mp (hsub p hp)).1) hkey
        · exact hacc2
    · exact hacc
  · intro s hs
    cases hs

/-- C3: generation fails fast, returning an error and leaving the
database untouched (no delete, no insert), whenever no questionnaire
exists for the project or the product query returns zero rows. -/
theorem C3_generate_fail_fast (db : DB) (pid cid : String) (ρ : Nat → Nat)
    (h : latestQuestionnaire db pid = none ∨
      ∃ q, latestQuestionnaire db pid = some q ∧
        productQuery db cid q.categories_selected = []) :
    ∃ e, generateSelections pid cid ρ db = (db, .error e) := by
  rcases h with h | ⟨q, hq, hp⟩
  · exact ⟨"Questionnaire not found", by rw [generateSelections, h]⟩
  · refine ⟨"No products found for selected categories", ?_⟩
    rw [generateSelections, hq]
    show (if (productQuery db cid q.categories_selected).isEmpty then _ else _) = _
    rw [hp]
    rfl

/-- C3 witness: an empty database has no questionnaire, so generation
errors out with the database unchanged. -/
theorem C3_generate_fail_fast_witness :
    ∃ e, generateSelections "p1" "c1" zeroOracle dbEmpty = (dbEmpty, .error e) :=
  C3_generate_fail_fast dbEmpty "p1" "c1" zeroOracle (Or.inl rfl)

/-- C4 counterexample: a successful run that generates zero selections (a
questionnaire with an empty room list) leaves the stale selection of the
project in place — prior selections are not deleted on every successful
run. -/
theorem C4_counterexample :
    (generateSelections "p1" "c1" zeroOracle dbEmptyRooms).2 = .ok [] ∧
    (generateSelections "p1" "c1" zeroOracle dbEmptyRooms).1 = dbEmptyRooms ∧
    dbEmptyRooms.selections = [staleSelection] ∧
    staleSelection.project_id = "p1" :=
  ⟨rfl, rfl, rfl, rfl⟩

/-- C4 amended: on every successful run that generates at least one
selection, the stored selections for the project are exactly replaced:
the new table is the old one minus every row of the project plus the
fresh rows, all of which belong to the project.  Runs that generate
nothing leave the table untouched (see the counterexample). -/
theorem generateSelections_eq_some (db : DB) (pid cid : String) (ρ : Nat → Nat)
    (q : Questionnaire) (hq : latestQuestionnaire db pid = some q) :
    generateSelections pid cid ρ db =
      (if (productQuery db cid q.categories_selected).isEmpty then
        (db, .error "No products found for selected categories")
      else if (buildSelections pid q ρ (productQuery db cid q.categories_selected)).1.isEmpty then
        (db, .ok (buildSelections pid q ρ (productQuery db cid q.categories_selected)).1)
      else
        ({ db with
            selections := db.selections.filter (fun s => !(s.project_id == pid)) ++
              (buildSelections pid q ρ (productQuery db cid q.categories_selected)).1
            projects := db.projects.map (fun pr =>
              if pr.id == pid then { pr with status := "review" } else pr) },
          .ok (buildSelections pid q ρ (productQuery db cid q.categories_selected)).1)) := by
  rw [generateSelections, hq]

theorem C4_replacement_amended (db : DB) (pid cid : String) (ρ : Nat → Nat)
    (db' : DB) (sels : List Selection)
    (h : generateSelections pid cid ρ db = (db', .ok sels)) (hne : sels ≠ []) :
    db'.selections = db.selections.filter (fun s => !(s.project_id == pid)) ++ sels ∧
    ∀ s ∈ sels, s.project_id = pid := by
  cases hq : latestQuestionnaire db pid with
  | none =>
    rw [generateSelections, hq] at h
    exact absurd (congrArg Prod.snd h) (by simp)
  | some q =>
    rw [generateSelections_eq_some db pid cid ρ q hq] at h
    by_cases hpe : (productQuery db cid q.categories_selected).isEmpty
    · rw [if_pos hpe] at h
      exact absurd (congrArg Prod.snd h) (by simp)
    · rw [if_neg hpe] at h
      by_cases hse :
          (buildSelections pid q ρ (productQuery db cid q.categories_selected)).1.isEmpty
      · rw [if_pos hse] at h
        have h2 := congrArg Prod.snd h
        simp only [Prod.snd, Except.ok.injEq] at h2
        rw [← h2] at hne
        exact absurd (List.isEmpty_iff.mp hse) hne
      · rw [if_neg hse] at h
        have h1 := congrArg Prod.fst h
        have h2 := congrArg Prod.snd h
        simp only [Prod.snd, Except.ok.injEq] at h2
        simp only [Prod.fst] at h1
        subst h2
        constructor
        · rw [← h1]
        · intro s hs
          exact (buildSelections_good pid q ρ _ s hs).1

theorem assocN_ne_zero (tbl : List (String × Nat)) (hall : ∀ p ∈ tbl, p.2 ≠ 0)
    (sc : String) (v : Nat) (h : assocN sc tbl = some v) : v ≠ 0 := by
  induction tbl with
  | nil => cases h
  | cons p t ih =>
    obtain ⟨k₁, v₁⟩ := p
    rw [assocN] at h
    by_cases hk : k₁ = sc
    · rw [if_pos hk] at h
      cases h
      exact hall _ (List.mem_cons_self _ _)
    · rw [if_neg hk] at h
      exact ih (fun x hx => hall x (List.mem_cons_of_mem _ hx)) h

theorem orFalsyN_getD (o : Option Nat) (b : Nat) (ho : ∀ v, o = some v → v ≠ 0) :
    orFalsyN o b = o.getD b := by
  cases o with
  | none => rfl
  | some v =>
    rw [orFalsyN, if_neg (ho v rfl)]
    rfl

/-- The source quantity function agrees everywhere with the table as the
claim enumerates it. -/
theorem getQuantity_eq_spec (rt sc : String) :
    getQuantityForRoomAndSubcategory rt sc = quantitySpec rt sc := by
  have hkq : ∀ v, assocN sc kitchenQuantities = some v → v ≠ 0 :=
    fun v h => assocN_ne_zero _ (by decide) sc v h
  have hbq : ∀ v, assocN sc bathroomQuantities = some v → v ≠ 0 :=
    fun v h => assocN_ne_zero _ (by decide) sc v h
  have hgq : ∀ v, assocN sc generalQuantities = some v → v ≠ 0 :=
    fun v h => assocN_ne_zero _ (by decide) sc v h
  rw [getQuantityForRoomAndSubcategory, quantitySpec]
  by_cases h1 : rt = "kitchen"
  · subst h1
    show orFalsyN (assocN sc kitchenQuantities)
        (orFalsyN (assocN sc generalQuantities) 1) =
      (assocN sc kitchenQuantities).getD ((assocN sc specGeneralTable).getD 1)
    rw [show specGeneralTable = generalQuantities from rfl]
    rw [orFalsyN_getD _ _ hgq, orFalsyN_getD _ _ hkq]
  · by_cases h2 : rt = "bathroom"
    · subst h2
      show orFalsyN (assocN sc bathroomQuantities)
          (orFalsyN (assocN sc generalQuantities) 1) =
        (assocN sc bathroomQuantities).getD ((assocN sc specGeneralTable).getD 1)
      rw [show specGeneralTable = generalQuantities from rfl]
      rw [orFalsyN_getD _ _ hgq, orFalsyN_getD _ _ hbq]
    · by_cases h3 : rt = "general"
      · subst h3
        show orFalsyN (assocN sc generalQuantities)
            (orFalsyN (assocN sc generalQuantities) 1) =
          Option.getD (Option.bind none (assocN sc)) ((assocN sc specGeneralTable).getD 1)
        rw [show specGeneralTable = generalQuantities from rfl]
        rw [orFalsyN_getD _ _ hgq, orFalsyN_getD _ _ hgq]
        cases assocN sc generalQuantities with
        | none => rfl
        | some v => rfl
      · have hrtq : assocT rt quantityMap = none := by
          rw [quantityMap, assocT, if_neg (fun h => h1 h.symm), assocT,
            if_neg (fun h => h2 h.symm), assocT, if_neg (fun h => h3 h.symm), assocT]
        have hrts : assocT rt specRoomTable = none := by
          rw [specRoomTable, assocT, if_neg (fun h => h1 h.symm), assocT,
            if_neg (fun h => h2 h.symm), assocT]
        rw [hrtq, hrts]
        show orFalsyN (assocN sc generalQuantities) 1 =
          Option.getD none ((assocN sc specGeneralTable).getD 1)
        rw [show specGeneralTable = generalQuantities from rfl]
        rw [orFalsyN_getD _ _ hgq]
        rfl

/-- C4 amended witness: the worked example replaces the (empty) prior
selection set of the project with the freshly generated rows, all carrying
the project id. -/
theorem C4_replacement_amended_witness :
    (generateSelections "p1" "c1" zeroOracle dbFull).1.selections =
      dbFull.selections.filter (fun s => !(s.project_id == "p1")) ++
        selsOfE (generateSelections "p1" "c1" zeroOracle dbFull).2 ∧
    ∀ s ∈ selsOfE (generateSelections "p1" "c1" zeroOracle dbFull).2,
      s.project_id = "p1" :=
  C4_replacement_amended dbFull "p1" "c1" zeroOracle
    (generateSelections "p1" "c1" zeroOracle dbFull).1
    (selsOfE (generateSelections "p1" "c1" zeroOracle dbFull).2) rfl (by decide)

/-- C5: every generated selection's quantity is the static-table entry for
its generating room type and subcategory (general-fallback and global
default 1 included), and the source table function agrees with the
claim's enumeration on every key pair. -/
theorem C5_quantity_table (db : DB) (pid cid : String) (ρ : Nat → Nat) (db' : DB)
    (sels : List Selection) (h : generateSelections pid cid ρ db = (db', .ok sels)) :
    (∀ s ∈ sels, ∃ q, latestQuestionnaire db pid = some q ∧
      ∃ room ∈ q.room_list, ∃ p ∈ productQuery db cid q.categories_selected,
        s.product_id = p.id ∧ s.room_name = room.name ∧
        s.quantity = quantitySpec room.rtype (subcatKey p)) ∧
    (∀ rt sc, getQuantityForRoomAndSubcategory rt sc = quantitySpec rt sc) := by
  refine ⟨?_, getQuantity_eq_spec⟩
  cases hq : latestQuestionnaire db pid with
  | none =>
    rw [generateSelections, hq] at h
    exact absurd (congrArg Prod.snd h) (by simp)
  | some q =>
    rw [generateSelections_eq_some db pid cid ρ q hq] at h
    by_cases hpe : (productQuery db cid q.categories_selected).isEmpty
    · rw [if_pos hpe] at h
      exact absurd (congrArg Prod.snd h) (by simp)
    · rw [if_neg hpe] at h
      have hsels : sels =
          (buildSelections pid q ρ (productQuery db cid q.categories_selected)).1 := by
        by_cases hse :
            (buildSelections pid q ρ (productQuery db cid q.categories_selected)).1.isEmpty
        · rw [if_pos hse] at h
          have h2 := congrArg Prod.snd h
          simp only [Prod.snd, Except.ok.injEq] at h2
          exact h2.symm
        · rw [if_neg hse] at h
          have h2 := congrArg Prod.snd h
          simp only [Prod.snd, Except.ok.injEq] at h2
          exact h2.symm
      rw [hsels]
      intro s hs
      obtain ⟨_, room, hroom, p, hp, hpidid, hname, hqty, _, _⟩ :=
        buildSelections_good pid q ρ _ s hs
      exact ⟨q, rfl, room, hroom, p, hp, hpidid, hname, by rw [hqty, getQuantity_eq_spec]⟩

/-! ### Clean-record fixpoint (C6 amended) -/

theorem truthy_ne_undef (v : JVal) (h : truthy v = true) : v ≠ .undef := by
  intro hh
  rw [hh] at h
  exact Bool.noConfusion h

theorem isArr_ne_undef (v : JVal) (h : isArr v = true) : v ≠ .undef := by
  intro hh
  rw [hh] at h
  exact Bool.noConfusion h

theorem isObj_ne_undef (v : JVal) (h : isObj v = true) : v ≠ .undef := by
  intro hh
  rw [hh] at h
  exact Bool.noConfusion h

theorem isObj_truthy (v : JVal) (h : isObj v = true) : truthy v = true := by
  cases v <;> first | rfl | exact Bool.noConfusion h

theorem jsOr_truthy (a b : JVal) (h : truthy a = true) : jsOr a b = a := by
  rw [jsOr, if_pos h]

theorem jsOr_num_zero (t : ℚ) : jsOr (.num t) (.num 0) = .num t := by
  by_cases h : t = 0
  · subst h
    rfl
  · exact jsOr_truthy _ _ (truthy_num_ne t h)

theorem isNumB_spec (v : JVal) (h : isNumB v = true) : v = .num (numOf v) := by
  cases v <;> first | rfl | exact Bool.noConfusion h

theorem bnot_true (b : Bool) (h : (!b) = true) : b = false := by
  cases b
  · rfl
  · exact Bool.noConfusion h

theorem confInUnit_spec (v : JVal) (h : confInUnit v = true) :
    ∃ c : ℚ, v = .num c ∧ qLtB c 0 = false ∧ qLtB 1 c = false := by
  cases v with
  | num c =>
    have h' : (!qLtB c 0 && !qLtB 1 c) = true := h
    simp only [Bool.and_eq_true] at h'
    exact ⟨c, rfl, bnot_true _ h'.1, bnot_true _ h'.2⟩
  | undef => exact Bool.noConfusion h
  | jnull => exact Bool.noConfusion h
  | jbool b => exact Bool.noConfusion h
  | str s => exact Bool.noConfusion h
  | arr a => exact Bool.noConfusion h
  | obj fs => exact Bool.noConfusion h

theorem setDefaultsRoom_clean (idx : Nat) (r : JVal) (ho : isObj r = true)
    (hid : truthy (getF r "id") = true) (hname : truthy (getF r "name") = true)
    (hfeat : isArr (getF r "features") = true)
    (hreq : truthy (getF r "requirements") = true) :
    setDefaultsRoom idx r = r := by
  have h1 : setF r "id" (jsOr (getF r "id") (.str ("room-" ++ toString (idx + 1)))) = r := by
    rw [jsOr_truthy _ _ hid]
    exact setF_getF_self r ho _ _ rfl (truthy_ne_undef _ hid)
  have h2 : setF r "name" (jsOr (getF r "name") (.str ("Room " ++ toString (idx + 1)))) = r := by
    rw [jsOr_truthy _ _ hname]
    exact setF_getF_self r ho _ _ rfl (truthy_ne_undef _ hname)
  have h3 : setF r "features"
      (if isArr (getF r "features") then getF r "features" else .arr []) = r := by
    rw [if_pos hfeat]
    exact setF_getF_self r ho _ _ rfl (isArr_ne_undef _ hfeat)
  have h4 : setF r "requirements" (jsOr (getF r "requirements") (.obj [])) = r := by
    rw [jsOr_truthy _ _ hreq]
    exact setF_getF_self r ho _ _ rfl (truthy_ne_undef _ hreq)
  simp only [setDefaultsRoom]
  rw [h1, h2, h3, h4]

theorem fixDims_clean (r : JVal) (ho : isObj r = true)
    (hdo : isObj (getF r "dimensions") = true) (l w s : ℚ)
    (hL : getF (getF r "dimensions") "length" = .num l)
    (hW : getF (getF r "dimensions") "width" = .num w)
    (hS : getF (getF r "dimensions") "squareFootage" = .num s)
    (hl0 : qLtB 0 l = true) (hw0 : qLtB 0 w = true)
    (htol : qLtB 5 (qAbs (qSub (qMul l w) s)) = false)
    (hs10 : qLtB s 10 = false) : fixDims r = r := by
  have hlpos : (0 : ℚ) < l := (qLtB_iff 0 l).mp hl0
  have hwpos : (0 : ℚ) < w := (qLtB_iff 0 w).mp hw0
  have htd : truthy (getF r "dimensions") = true := isObj_truthy _ hdo
  have hn5 : ¬ (5 : ℚ) < |l * w - s| := by
    intro hlt
    rw [← qMul_eq l w, ← qSub_eq, ← qAbs_eq] at hlt
    have := (qLtB_iff 5 (qAbs (qSub (qMul l w) s))).mpr hlt
    rw [htol] at this
    exact Bool.noConfusion this
  have hn10 : ¬ s < 10 := by
    intro hlt
    have := (qLtB_iff s 10).mpr hlt
    rw [hs10] at this
    exact Bool.noConfusion this
  rw [fixDims, if_pos htd]
  rw [fixSqftMismatch_num _ l w s hL (ne_of_gt hlpos) hW (ne_of_gt hwpos) hS, if_neg hn5]
  rw [fixSqftSmall_num r _ s hS, if_neg hn10]
  exact setF_getF_self r ho _ _ rfl (isObj_ne_undef _ hdo)

theorem fixConfidence_clean (r : JVal) (c : ℚ) (hc : getF r "confidence" = .num c)
    (h0 : qLtB c 0 = false) (h1 : qLtB 1 c = false) : fixConfidence r = r := by
  rw [fixConfidence, hc, jsLtNum_num, jsGtNum_num, h0, h1]
  rw [if_neg (fun hh => Bool.noConfusion hh)]

theorem fixType_clean (r : JVal) (h : isValidType (getF r "type") = true) :
    fixType r = r := by
  rw [fixType, if_pos h]

theorem sanitizeRoomCore_clean (r : JVal) (h : cleanRoom r = true) (idx : Nat) :
    sanitizeRoomCore idx r = r := by
  rw [cleanRoom] at h
  simp only [Bool.and_eq_true] at h
  obtain ⟨⟨⟨⟨⟨⟨⟨⟨⟨⟨⟨⟨⟨⟨h1, h2⟩, h3⟩, h4⟩, h5⟩, h6⟩, h7⟩, h8⟩, h9⟩, h10⟩,
    h11⟩, h12⟩, h13⟩, h14⟩, h15⟩ := h
  obtain ⟨c, hc, hc0, hc1⟩ := confInUnit_spec _ h14
  rw [sanitizeRoomCore, setDefaultsRoom_clean idx r h1 h2 h3 h4 h5,
    fixDims_clean r h1 h6 _ _ _ (isNumB_spec _ h7) (isNumB_spec _ h8) (isNumB_spec _ h9)
      h10 h11 (bnot_true _ h12) (bnot_true _ h13),
    fixConfidence_clean r c hc hc0 hc1, fixType_clean r h15]

theorem cleanRoom_isObj (r : JVal) (h : cleanRoom r = true) : isObj r = true := by
  rw [cleanRoom] at h
  simp only [Bool.and_eq_true] at h
  exact h.1.1.1.1.1.1.1.1.1.1.1.1.1.1

theorem mapRoomsFrom_clean (l : List JVal) (h : ∀ r ∈ l, cleanRoom r = true) :
    ∀ i, mapRoomsFrom i l = l := by
  induction l with
  | nil => intro i; rfl
  | cons r t ih =>
    intro i
    rw [mapRoomsFrom, sanitizeRoomCore_clean r (h r (List.mem_cons_self _ _)) i,
      ih (fun x hx => h x (List.mem_cons_of_mem _ hx)) (i + 1)]

theorem applyGlobalDefaults_clean (x : JVal) (ho : isObj x = true)
    (ht : isNumB (getF x "totalSquareFootage") = true)
    (hf : truthy (getF x "floorCount") = true)
    (hr : isArr (getF x "recommendations") = true) :
    applyGlobalDefaults x = x := by
  have h1 : setF x "totalSquareFootage"
      (jsOr (getF x "totalSquareFootage") (.num 0)) = x := by
    rw [isNumB_spec _ ht, jsOr_num_zero]
    exact setF_getF_self x ho _ _ (isNumB_spec _ ht) (fun hh => JVal.noConfusion hh)
  have h2 : setF x "floorCount" (jsOr (getF x "floorCount") (.num 1)) = x := by
    rw [jsOr_truthy _ _ hf]
    exact setF_getF_self x ho _ _ rfl (truthy_ne_undef _ hf)
  have h3 : setF x "recommendations"
      (if isArr (getF x "recommendations") then getF x "recommendations" else .arr []) = x := by
    rw [if_pos hr]
    exact setF_getF_self x ho _ _ rfl (isArr_ne_undef _ hr)
  simp only [applyGlobalDefaults]
  rw [h1, h2, h3]

theorem getF_rooms_of_isArr (x : JVal) (h : isArr (getF x "rooms") = true) :
    getF x "rooms" = .arr (roomsListOf x) := by
  rw [roomsListOf]
  cases hR : getF x "rooms" with
  | arr l => rfl
  | undef => rw [hR] at h; exact Bool.noConfusion h
  | jnull => rw [hR] at h; exact Bool.noConfusion h
  | jbool b => rw [hR] at h; exact Bool.noConfusion h
  | num q => rw [hR] at h; exact Bool.noConfusion h
  | str s => rw [hR] at h; exact Bool.noConfusion h
  | obj fs => rw [hR] at h; exact Bool.noConfusion h

/-- C6 amended: `sanitize` is not idempotent in general (see the
counterexample), but every record already in canonical form is fixed
exactly: `sanitize x = x`, hence a second pass changes nothing. -/
theorem C6_sanitize_clean_fixpoint (x : JVal) (h : cleanRecord x = true) :
    sanitizeAnalysisResult x = .ok x ∧
    (sanitizeAnalysisResult x).bind sanitizeAnalysisResult = sanitizeAnalysisResult x := by
  rw [cleanRecord] at h
  simp only [Bool.and_eq_true] at h
  obtain ⟨⟨⟨⟨⟨hobj, hroomsarr⟩, hall⟩, ht⟩, hf⟩, hrec⟩ := h
  have hallclean : ∀ r ∈ roomsListOf x, cleanRoom r = true := by
    intro r hr
    exact List.all_eq_true.mp hall r hr
  have hobjs : ∀ r ∈ roomsListOf x, isObj r = true :=
    fun r hr => cleanRoom_isObj _ (hallclean r hr)
  have hfix : sanitizeAnalysisResult x = .ok x := by
    cases x with
    | obj fs =>
      have hrs : sanitizeRooms 0 (roomsListOf (JVal.obj fs)) =
          .ok (roomsListOf (JVal.obj fs)) := by
        rw [sanitizeRooms_ok_of_obj _ 0 hobjs, mapRoomsFrom_clean _ hallclean 0]
      show (do
        let rs ← sanitizeRooms 0 (roomsListOf (JVal.obj fs))
        pure (applyGlobalDefaults (setF (JVal.obj fs) "rooms"
          (.arr (rs.filter notNull))))) = _
      rw [hrs]
      show Except.ok (applyGlobalDefaults (setF (JVal.obj fs) "rooms"
        (.arr ((roomsListOf (JVal.obj fs)).filter notNull)))) = _
      rw [filter_notNull_obj _ hobjs]
      rw [setF_getF_self (JVal.obj fs) (by rfl) _ _ (getF_rooms_of_isArr _ hroomsarr)
        (fun hh => JVal.noConfusion hh)]
      rw [applyGlobalDefaults_clean (JVal.obj fs) (by rfl) ht hf hrec]
    | undef => exact Bool.noConfusion hobj
    | jnull => exact Bool.noConfusion hobj
    | jbool b => exact Bool.noConfusion hobj
    | num q => exact Bool.noConfusion hobj
    | str s => exact Bool.noConfusion hobj
    | arr a => exact Bool.noConfusion hobj
  exact ⟨hfix, by rw [hfix]; exact hfix⟩

/-- C6 amended witness: a concrete canonical record is returned exactly
as given, twice over. -/
theorem C6_sanitize_clean_fixpoint_witness :
    sanitizeAnalysisResult sampleCleanRec = .ok sampleCleanRec ∧
    (sanitizeAnalysisResult sampleCleanRec).bind sanitizeAnalysisResult =
      sanitizeAnalysisResult sampleCleanRec :=
  C6_sanitize_clean_fixpoint sampleCleanRec rfl

/-- C5 witness: the worked example (one kitchen, one available
appliances/dishwasher product) instantiates the quantity property. -/
theorem C5_quantity_table_witness :
    (∀ s ∈ selsOfE (generateSelections "p1" "c1" zeroOracle dbFull).2,
      ∃ q, latestQuestionnaire dbFull "p1" = some q ∧
        ∃ room ∈ q.room_list, ∃ p ∈ productQuery dbFull "c1" q.categories_selected,
          s.product_id = p.id ∧ s.room_name = room.name ∧
          s.quantity = quantitySpec room.rtype (subcatKey p)) ∧
    (∀ rt sc, getQuantityForRoomAndSubcategory rt sc = quantitySpec rt sc) :=
  C5_quantity_table dbFull "p1" "c1" zeroOracle
    (generateSelections "p1" "c1" zeroOracle dbFull).1
    (selsOfE (generateSelections "p1" "c1" zeroOracle dbFull).2) rfl

end BuildSelect
